import Mathlib

/-!
Shallow embedding of the single-threaded agent runtime
(`src/python/packages/autogen-core/src/autogen_core/_single_threaded_agent_runtime.py`).

Modeling conventions:
* Mutable runtime state is explicit state passing over `RuntimeState`; Python
  exceptions are `Except Err` values or explicit error branches.
* The dispatcher spawns a background delivery task per envelope and then
  yields (`await asyncio.sleep(0)`).  When agent handlers and factories
  contain no suspension points — the case in every scenario below — the
  spawned task runs to completion before the dispatcher dequeues again, so
  the model executes each delivery at its spawn point.
* The ghost fields `invoked`, `factory_calls`, `put_count`,
  `task_done_count` and `errors_logged` record observable events
  (handler invocations, factory invocations, `queue.put`, `queue.task_done`,
  `logger.error`); they never influence control flow.
-/

namespace AutogenCore

/-- Agent identity: a `(type, key)` pair with componentwise equality. -/
structure AgentId where
  type : String
  key : String
deriving DecidableEq

/-- Topic identity; value equality defines identity. -/
structure TopicId where
  type : String
  source : String
deriving DecidableEq

/-- Logical error kinds, matching the `raise` / `set_exception` sites of the
source: `Exception("Recipient not found")`, `LookupError` from `_get_agent`,
`ValueError` for duplicate registration and for the `register_factory` class
check, `MessageDroppedException`, `CancelledError`, agent/intervention
errors, and the `RuntimeError`s of the lifecycle methods. -/
inductive Err where
  | recipientNotFound
  | agentNotFound (type : String)
  | duplicateType (type : String)
  | factoryTypeMismatch
  | messageDropped
  | cancelledError
  | handlerError (s : String)
  | lifecycle (s : String)
deriving DecidableEq

/-- The state of an `asyncio.Future`.  `set_exception` / `set_result` on an
already-done future would raise `InvalidStateError` in Python; the model
leaves the future unchanged instead, and no modeled scenario reaches that
path. -/
inductive FutureState (Msg : Type) where
  | pending
  | resolved (m : Msg)
  | error (e : Err)
  | cancelled
deriving DecidableEq

/-- Whether a future is in the cancelled state (`future.cancelled()`). -/
def FutureState.isCancelled {Msg : Type} : FutureState Msg → Bool
  | .cancelled => true
  | _ => false

/-- Per-delivery metadata, with the fields the source passes to
`MessageContext(...)`.  The cancellation token is represented by its
cancelled flag at delivery time (see `cancel_future`). -/
structure MessageContext (Msg : Type) where
  sender : Option AgentId
  topic_id : Option TopicId
  is_rpc : Bool
  token_cancelled : Bool
  message_id : String
deriving DecidableEq

/-- External agent contract: a concrete class name (checked by
`register_factory`) and the message handler, which may raise. -/
structure Agent (Msg : Type) where
  cls : String
  on_message : Msg → MessageContext Msg → Except Err Msg

/-- An agent factory.  The source accepts nullary and binary factories and
exposes `(runtime, agent_id)` through `AgentInstantiationContext`; both
arities are therefore modeled as a function of the `AgentId`, which may
fail. -/
structure Factory (Msg : Type) where
  produce : AgentId → Except Err (Agent Msg)

/-- Result of one intervention handler call: a (possibly modified) message,
the `DropMessage` sentinel, or a raised exception. -/
inductive HandlerOut (Msg : Type) where
  | ret (m : Msg)
  | drop
  | raise (e : Err)
deriving DecidableEq

/-- Intervention middleware contract (`on_send` / `on_publish` /
`on_response`). -/
structure InterventionHandler (Msg : Type) where
  on_send : Msg → Option AgentId → AgentId → HandlerOut Msg
  on_publish : Msg → Option AgentId → HandlerOut Msg
  on_response : Msg → AgentId → Option AgentId → HandlerOut Msg

/-- `SendMessageEnvelope`; the future is an index into
`RuntimeState.futures`, and the envelope's cancellation token is the one
linked to that future. -/
structure SendMessageEnvelope (Msg : Type) where
  message : Msg
  sender : Option AgentId
  recipient : AgentId
  future : Nat
deriving DecidableEq

/-- `PublishMessageEnvelope`. -/
structure PublishMessageEnvelope (Msg : Type) where
  message : Msg
  sender : Option AgentId
  topic_id : TopicId
  message_id : String
  token_cancelled : Bool
deriving DecidableEq

/-- `ResponseMessageEnvelope`. -/
structure ResponseMessageEnvelope (Msg : Type) where
  message : Msg
  future : Nat
  sender : AgentId
  recipient : Option AgentId
deriving DecidableEq

/-- The tagged envelope variant carried by the message queue. -/
inductive Envelope (Msg : Type) where
  | send (e : SendMessageEnvelope Msg)
  | publish (e : PublishMessageEnvelope Msg)
  | response (e : ResponseMessageEnvelope Msg)
deriving DecidableEq

/-- Association-list lookup (first binding wins), modeling the `Dict` fields
of the runtime. -/
def alookup {α β : Type} [DecidableEq α] : List (α × β) → α → Option β
  | [], _ => none
  | (k, v) :: rest, a => if k = a then some v else alookup rest a

/-- The state of a `SingleThreadedAgentRuntime` together with its queue and
the futures created by `send_message`.  `subscriptions` holds the
subscription manager's answer per topic (see
`get_subscribed_recipients`). -/
structure RuntimeState (Msg : Type) where
  message_queue : List (Envelope Msg)
  agent_factories : List (String × Factory Msg)
  instantiated_agents : List (AgentId × Agent Msg)
  intervention_handlers : List (InterventionHandler Msg)
  subscriptions : List (TopicId × List AgentId)
  futures : List (FutureState Msg)
  running : Bool
  put_count : Nat
  task_done_count : Nat
  invoked : List (AgentId × Msg)
  factory_calls : List AgentId
  errors_logged : Nat

variable {Msg : Type}

/-- Modelled from the spec: `SubscriptionManager.get_subscribed_recipients`
(`_runtime_impl_helpers.py` is not among the sources).  Spec section 4.2
defines `recipients(topic_id)` as an order-preserving, deduplicated list of
recipient AgentIds; it is modeled here as a precomputed map from topic to
recipient list. -/
def get_subscribed_recipients (st : RuntimeState Msg) (topic_id : TopicId) :
    List AgentId :=
  (alookup st.subscriptions topic_id).getD []

/-- `queue.put`: append the envelope (FIFO) and count the successful put. -/
def put_queue (st : RuntimeState Msg) (env : Envelope Msg) : RuntimeState Msg :=
  { st with message_queue := st.message_queue ++ [env],
            put_count := st.put_count + 1 }

/-- `queue.task_done`. -/
def task_done (st : RuntimeState Msg) : RuntimeState Msg :=
  { st with task_done_count := st.task_done_count + 1 }

/-- Read a future by index. -/
def get_future (st : RuntimeState Msg) (i : Nat) : FutureState Msg :=
  st.futures.getD i .pending

/-- Overwrite a future by index. -/
def set_future (st : RuntimeState Msg) (i : Nat) (f : FutureState Msg) :
    RuntimeState Msg :=
  { st with futures := st.futures.set i f }

/-- `future.set_exception(e)`: settles a pending future with an error.  A
done future is left unchanged (Python would raise `InvalidStateError`; no
modeled scenario reaches that path).  The source's occasional
`if not future.cancelled()` guard before `set_exception` is subsumed:
a cancelled future is already done. -/
def future_set_exception (st : RuntimeState Msg) (i : Nat) (e : Err) :
    RuntimeState Msg :=
  match get_future st i with
  | .pending => set_future st i (.error e)
  | _ => st

/-- `if not future.cancelled(): future.set_result(m)` as performed by
`_process_response`. -/
def future_set_result_unless_cancelled (st : RuntimeState Msg) (i : Nat)
    (m : Msg) : RuntimeState Msg :=
  match get_future st i with
  | .pending => set_future st i (.resolved m)
  | _ => st

/-- Modelled from the spec: `CancellationToken`
(`_cancellation_token.py` is not among the sources).  Spec section 3:
`link_future(f)` arranges that cancelling the token also cancels `f`, and
cancellation is idempotent and monotonic.  Each Send's token is linked to
exactly one future here, so cancelling the token is modeled as cancelling
that future; `future.cancel()` on a done future is a no-op. -/
def cancel_future (st : RuntimeState Msg) (i : Nat) : RuntimeState Msg :=
  match get_future st i with
  | .pending => set_future st i .cancelled
  | _ => st

/-- `_invoke_agent_factory` (source lines 629-651): invoke the factory
(recorded in `factory_calls`) and return its outcome; a raising factory
propagates, after the invocation has happened. -/
def invoke_factory (st : RuntimeState Msg) (agent_id : AgentId)
    (f : Factory Msg) : RuntimeState Msg × Except Err (Agent Msg) :=
  ({ st with factory_calls := st.factory_calls ++ [agent_id] },
    f.produce agent_id)

/-- `_get_agent` (source lines 653-663): a cache hit returns the instance
with the state unchanged; otherwise the factory bound to the type is
invoked via `invoke_factory` and the produced agent is cached.  A missing
type raises `LookupError`. -/
def get_agent (st : RuntimeState Msg) (agent_id : AgentId) :
    RuntimeState Msg × Except Err (Agent Msg) :=
  match alookup st.instantiated_agents agent_id with
  | some a => (st, .ok a)
  | none =>
    match alookup st.agent_factories agent_id.type with
    | none => (st, .error (.agentNotFound agent_id.type))
    | some f =>
      match invoke_factory st agent_id f with
      | (st1, .error e) => (st1, .error e)
      | (st1, .ok a) =>
        ({ st1 with
            instantiated_agents := st1.instantiated_agents ++ [(agent_id, a)] },
          .ok a)

/-- The `factory_wrapper` closure stored by `register_factory` (source lines
613-623): invoke the user factory, then require the produced instance's
concrete class to equal `expected_class`, raising
`ValueError("Factory registered using the wrong type.")` otherwise. -/
def factory_wrapper (f : Factory Msg) (expected_class : String) : Factory Msg :=
  ⟨fun agent_id =>
    match f.produce agent_id with
    | .error e => .error e
    | .ok a =>
      if a.cls = expected_class then .ok a else .error .factoryTypeMismatch⟩

/-- `register_factory` (source lines 603-627): reject a duplicate type, then
store `factory_wrapper`.  Note that the user factory is NOT invoked here;
the class check runs when the wrapper is first invoked by `_get_agent`. -/
def register_factory (st : RuntimeState Msg) (type : String) (f : Factory Msg)
    (expected_class : String) : Except Err (RuntimeState Msg) :=
  match alookup st.agent_factories type with
  | some _ => .error (.duplicateType type)
  | none =>
    .ok { st with agent_factories :=
            st.agent_factories ++ [(type, factory_wrapper f expected_class)] }

/-- The `MessageContext` `_process_send` builds (source lines 318-325); the
token's cancelled flag is read through the future linked to it. -/
def send_ctx (st : RuntimeState Msg) (e : SendMessageEnvelope Msg) :
    MessageContext Msg :=
  { sender := e.sender, topic_id := none, is_rpc := true,
    token_cancelled := (get_future st e.future).isCancelled,
    message_id := "NOT_DEFINED_TODO_FIX" }

/-- The settlement of `_process_send` (source lines 331-350) on the outcome
of `on_message`: `except CancelledError` settles the future with the error
unless it is already cancelled (the guard is subsumed by
`future_set_exception`, which leaves a done future unchanged),
`except BaseException` settles it with the error, and success enqueues the
Response envelope pointing back at the original sender; every path performs
exactly one `task_done`. -/
def settle_send (st : RuntimeState Msg) (e : SendMessageEnvelope Msg) :
    Except Err Msg → RuntimeState Msg
  | .error .cancelledError =>
    task_done (future_set_exception st e.future .cancelledError)
  | .error err => task_done (future_set_exception st e.future err)
  | .ok response =>
    task_done (put_queue st (.response
      { message := response, future := e.future,
        sender := e.recipient, recipient := e.sender }))

/-- `_process_send` (source lines 296-350): resolve the recipient (a raising
resolution settles the future with the error and performs `task_done`),
invoke its `on_message` (recorded in `invoked`), and settle per
`settle_send`. -/
def process_send (st : RuntimeState Msg) (e : SendMessageEnvelope Msg) :
    RuntimeState Msg :=
  match get_agent st e.recipient with
  | (st1, .error err) => task_done (future_set_exception st1 e.future err)
  | (st1, .ok agent) =>
    settle_send { st1 with invoked := st1.invoked ++ [(e.recipient, e.message)] }
      e (agent.on_message e.message (send_ctx st1 e))

/-- The `MessageContext` `_process_publish` builds per recipient (source
lines 378-384); its fields are identical for every recipient of one
envelope. -/
def publish_ctx (env : PublishMessageEnvelope Msg) : MessageContext Msg :=
  { sender := env.sender, topic_id := some env.topic_id, is_rpc := false,
    token_cancelled := env.token_cancelled, message_id := env.message_id }

/-- Sequencing of stateful, exception-propagating steps (a Python statement
sequence inside a `try` block): a raised exception aborts the continuation,
keeping the state changes already performed. -/
def state_bind {α β : Type} (p : RuntimeState Msg × Except Err α)
    (k : RuntimeState Msg → α → RuntimeState Msg × Except Err β) :
    RuntimeState Msg × Except Err β :=
  match p with
  | (st, .error e) => (st, .error e)
  | (st, .ok a) => k st a

/-- The per-iteration sender resolution of `_process_publish` (source lines
362-365): a publish with a sender resolves the sender agent (used only for
logging), lazily instantiating it through the cache; a raising resolution
propagates. -/
def resolve_sender (env : PublishMessageEnvelope Msg) (st : RuntimeState Msg) :
    RuntimeState Msg × Except Err Unit :=
  match env.sender with
  | none => (st, .ok ())
  | some s => ((get_agent st s).1, (get_agent st s).2.map (fun _ => ()))

/-- The recipient loop of `_process_publish` (source lines 356-396): skip any
recipient equal to the sender, resolve the sender agent, build the
per-recipient context, resolve the recipient and collect the pending
`on_message` call.  An exception aborts the collection (the coroutines
collected so far are never awaited); cache insertions already performed
persist. -/
def collect_publish (env : PublishMessageEnvelope Msg) :
    List AgentId → RuntimeState Msg →
    RuntimeState Msg × Except Err (List (AgentId × Agent Msg × MessageContext Msg))
  | [], st => (st, .ok [])
  | agent_id :: rest, st =>
    if env.sender = some agent_id then
      collect_publish env rest st
    else
      state_bind (resolve_sender env st) (fun st1 _ =>
        state_bind (get_agent st1 agent_id) (fun st2 a =>
          state_bind (collect_publish env rest st2) (fun st3 ds =>
            (st3, .ok ((agent_id, a, publish_ctx env) :: ds)))))

/-- `await asyncio.gather(*responses)`: every collected call starts, so every
collected `on_message` is invoked (recorded in `invoked`); return values are
discarded and the first exception, if any, propagates to
`_process_publish`. -/
def gather_publish (msg : Msg) :
    List (AgentId × Agent Msg × MessageContext Msg) → RuntimeState Msg →
    RuntimeState Msg × Option Err
  | [], st => (st, none)
  | (agent_id, a, ctx) :: rest, st =>
    match a.on_message msg ctx with
    | .error e =>
      ((gather_publish msg rest
          { st with invoked := st.invoked ++ [(agent_id, msg)] }).1, some e)
    | .ok _ =>
      gather_publish msg rest
        { st with invoked := st.invoked ++ [(agent_id, msg)] }

/-- `_process_publish` (source lines 352-406): collect and run the recipient
invocations; `except BaseException` returns silently for `CancelledError`
and logs anything else; the `finally` block performs `task_done` on every
path. -/
def process_publish (st : RuntimeState Msg) (env : PublishMessageEnvelope Msg) :
    RuntimeState Msg :=
  match collect_publish env (get_subscribed_recipients st env.topic_id) st with
  | (st1, .error e) =>
    task_done (if e = Err.cancelledError then st1
               else { st1 with errors_logged := st1.errors_logged + 1 })
  | (st1, .ok ds) =>
    match gather_publish env.message ds st1 with
    | (st2, none) => task_done st2
    | (st2, some e) =>
      task_done (if e = Err.cancelledError then st2
                 else { st2 with errors_logged := st2.errors_logged + 1 })

/-- `_process_response` (source lines 408-429): `task_done`, then settle the
caller's future with the response message unless it is already cancelled. -/
def process_response (st : RuntimeState Msg) (e : ResponseMessageEnvelope Msg) :
    RuntimeState Msg :=
  future_set_result_unless_cancelled (task_done st) e.future e.message

/-- Outcome of an intervention sub-pipeline. -/
inductive PipelineRes (Msg : Type) where
  | delivered (m : Msg)
  | dropped
  | errored (e : Err)
deriving DecidableEq

/-- The intervention for-loop of `_process_next` (source lines 445-501),
generic over which of `on_send` / `on_publish` / `on_response` is called.
The source passes the pattern-bound `message` — the message as dequeued — to
EVERY handler (`orig` here), while `message_envelope.message` is reassigned
after each non-dropping handler (`envMsg` here).  The second component of
the result lists the argument each executed handler received. -/
def pipeline_loop (call : InterventionHandler Msg → Msg → HandlerOut Msg)
    (orig : Msg) :
    List (InterventionHandler Msg) → Msg → PipelineRes Msg × List Msg
  | [], envMsg => (.delivered envMsg, [])
  | h :: rest, _envMsg =>
    match call h orig with
    | .raise e => (.errored e, [orig])
    | .drop => (.dropped, [orig])
    | .ret m =>
      let p := pipeline_loop call orig rest m
      (p.1, orig :: p.2)

/-- The intervention pipeline as the spec words it: "the message passed to
handler i+1 is the return value from i" — a chained fold.  This definition
follows the spec's words and exists only to be compared against
`pipeline_loop`, which is translated from the source. -/
def chained_pipeline (call : InterventionHandler Msg → Msg → HandlerOut Msg) :
    List (InterventionHandler Msg) → Msg → PipelineRes Msg
  | [], m => .delivered m
  | h :: rest, m =>
    match call h m with
    | .raise e => .errored e
    | .drop => .dropped
    | .ret m2 => chained_pipeline call rest m2

/-- The `case SendMessageEnvelope` block of `_process_next` (source lines
444-463), on the state after the dequeue: run the `on_send` pipeline; a
raising handler settles the future with the error and a DropMessage settles
it with `MessageDroppedException` — both return WITHOUT `task_done`;
otherwise the delivery task `_process_send` runs on the updated envelope. -/
def dispatch_send (st : RuntimeState Msg) (e : SendMessageEnvelope Msg) :
    RuntimeState Msg :=
  match pipeline_loop (fun h m => h.on_send m e.sender e.recipient)
      e.message st.intervention_handlers e.message with
  | (.errored err, _) => future_set_exception st e.future err
  | (.dropped, _) => future_set_exception st e.future .messageDropped
  | (.delivered m, _) => process_send st { e with message := m }

/-- The `case PublishMessageEnvelope` block of `_process_next` (source lines
464-487): a raising handler is logged and a DropMessage is silently
discarded — both return WITHOUT `task_done`; otherwise `_process_publish`
runs on the updated envelope. -/
def dispatch_publish (st : RuntimeState Msg) (e : PublishMessageEnvelope Msg) :
    RuntimeState Msg :=
  match pipeline_loop (fun h m => h.on_publish m e.sender)
      e.message st.intervention_handlers e.message with
  | (.errored _, _) => { st with errors_logged := st.errors_logged + 1 }
  | (.dropped, _) => st
  | (.delivered m, _) => process_publish st { e with message := m }

/-- The `case ResponseMessageEnvelope` block of `_process_next` (source
lines 488-504): as for Send, without `task_done` on the drop and error
paths; otherwise `_process_response` runs on the updated envelope. -/
def dispatch_response (st : RuntimeState Msg) (e : ResponseMessageEnvelope Msg) :
    RuntimeState Msg :=
  match pipeline_loop (fun h m => h.on_response m e.sender e.recipient)
      e.message st.intervention_handlers e.message with
  | (.errored err, _) => future_set_exception st e.future err
  | (.dropped, _) => future_set_exception st e.future .messageDropped
  | (.delivered m, _) => process_response st { e with message := m }

/-- `_process_next` (source lines 435-507): dequeue one envelope and run the
matching `case` block; the spawned delivery task runs to completion before
the next dequeue (see the module header). -/
def process_next (st : RuntimeState Msg) : RuntimeState Msg :=
  match st.message_queue with
  | [] => st
  | .send e :: rest => dispatch_send { st with message_queue := rest } e
  | .publish e :: rest => dispatch_publish { st with message_queue := rest } e
  | .response e :: rest =>
    dispatch_response { st with message_queue := rest } e

/-- `send_message` (source lines 191-238): create the future, pre-settle it
with `Recipient not found` when the type is unknown (the envelope is still
enqueued), enqueue the Send envelope, then `link_future` — a token already
cancelled cancels the pending future.  Returns the new future's index. -/
def send_message (st : RuntimeState Msg) (message : Msg) (recipient : AgentId)
    (sender : Option AgentId) (token_cancelled : Bool) :
    RuntimeState Msg × Nat :=
  let fid := st.futures.length
  let fut0 : FutureState Msg :=
    match alookup st.agent_factories recipient.type with
    | none => .error .recipientNotFound
    | some _ => .pending
  let st1 := { st with futures := st.futures ++ [fut0] }
  let st2 := put_queue st1 (.send
    { message := message, sender := sender, recipient := recipient,
      future := fid })
  (if token_cancelled then cancel_future st2 fid else st2, fid)

/-- `publish_message` (source lines 240-282): enqueue a Publish envelope;
awaiting only waits for the enqueue.  The `message_id` is taken as given
(the source draws a UUID when absent). -/
def publish_message (st : RuntimeState Msg) (message : Msg) (topic_id : TopicId)
    (sender : Option AgentId) (message_id : String) : RuntimeState Msg :=
  put_queue st (.publish
    { message := message, sender := sender, topic_id := topic_id,
      message_id := message_id, token_cancelled := false })

/-- `start` (source lines 509-524): raise `RuntimeError` if a run context
exists, before any state change. -/
def start (st : RuntimeState Msg) : Except Err (RuntimeState Msg) :=
  if st.running then .error (.lifecycle "Runtime is already started")
  else .ok { st with running := true }

/-- `stop` (source lines 526-532): raise `RuntimeError` if not running,
before any state change; otherwise stop the dispatcher, shut the queue down
immediately (discarding queued envelopes) and install a fresh queue. -/
def stop (st : RuntimeState Msg) : Except Err (RuntimeState Msg) :=
  if st.running then .ok { st with running := false, message_queue := [] }
  else .error (.lifecycle "Runtime is not started")

/-- `stop_when_idle` (source lines 534-541): raise `RuntimeError` if not
running, before any state change; otherwise join the queue and stop.  The
blocking `join` is temporal; only the post-state is modeled here. -/
def stop_when_idle (st : RuntimeState Msg) : Except Err (RuntimeState Msg) :=
  if st.running then .ok { st with running := false, message_queue := [] }
  else .error (.lifecycle "Runtime is not started")

/-- `stop_when` (source lines 543-561): raise `RuntimeError` if not running,
before any state change; otherwise poll the condition and stop when it
holds (the polling loop is temporal; only the post-state is modeled). -/
def stop_when (st : RuntimeState Msg) (_condition : RuntimeState Msg → Bool) :
    Except Err (RuntimeState Msg) :=
  if st.running then .ok { st with running := false, message_queue := [] }
  else .error (.lifecycle "Runtime is not started")

/-- The externally drivable operations of a live runtime, used to state
lifetime invariants. -/
inductive RuntimeOp (Msg : Type) where
  | sendOp (message : Msg) (recipient : AgentId) (sender : Option AgentId)
      (token_cancelled : Bool)
  | publishOp (message : Msg) (topic_id : TopicId) (sender : Option AgentId)
      (message_id : String)
  | stepOp
  | getAgentOp (agent_id : AgentId)
  | cancelOp (i : Nat)

/-- Apply one operation: enqueue a send, enqueue a publish, let the
dispatcher process one envelope, resolve an agent (`runtime.get` with
`lazy=false`, `agent_metadata`, ...), or cancel a token. -/
def apply_op (st : RuntimeState Msg) : RuntimeOp Msg → RuntimeState Msg
  | .sendOp m r s t => (send_message st m r s t).1
  | .publishOp m t s mid => publish_message st m t s mid
  | .stepOp => process_next st
  | .getAgentOp a => (get_agent st a).1
  | .cancelOp i => cancel_future st i

/-- Apply a sequence of operations in order. -/
def apply_ops (st : RuntimeState Msg) : List (RuntimeOp Msg) → RuntimeState Msg
  | [] => st
  | op :: rest => apply_ops (apply_op st op) rest

/-- A runtime with nothing registered and nothing queued. -/
def init_state (Msg : Type) : RuntimeState Msg :=
  { message_queue := [], agent_factories := [], instantiated_agents := [],
    intervention_handlers := [], subscriptions := [], futures := [],
    running := false, put_count := 0, task_done_count := 0, invoked := [],
    factory_calls := [], errors_logged := 0 }

/-- All registered factories succeed on every id (no raising factories). -/
def factories_total (st : RuntimeState Msg) : Prop :=
  ∀ t f, alookup st.agent_factories t = some f →
    ∀ a, ∃ ag, f.produce a = Except.ok ag

/-- The lazy-singleton invariant: no AgentId's factory has been invoked twice,
and every invocation left a cached instance behind. -/
def inst_inv (st : RuntimeState Msg) : Prop :=
  st.factory_calls.Nodup ∧
  ∀ a ∈ st.factory_calls, ∃ ag, alookup st.instantiated_agents a = some ag

/-- Every instance cached in `st` is still cached (never evicted) in `st2`. -/
def cache_mono (st st2 : RuntimeState Msg) : Prop :=
  ∀ a ag, alookup st.instantiated_agents a = some ag →
    alookup st2.instantiated_agents a = some ag

/-- A step from `st` to `st2` keeps the factory table, never evicts a cached
instance, and preserves the lazy-singleton invariant. -/
def preserves_cache (st st2 : RuntimeState Msg) : Prop :=
  st2.agent_factories = st.agent_factories ∧ cache_mono st st2 ∧
  (factories_total st → inst_inv st → inst_inv st2)

/-! Concrete instances used by the witnesses and counterexamples. -/

/-- An intervention handler that increments a `Nat` message in every
sub-pipeline. -/
def incHandler : InterventionHandler Nat :=
  ⟨fun m _ _ => .ret (m + 1), fun m _ => .ret (m + 1), fun m _ _ => .ret (m + 1)⟩

/-- An intervention handler that returns `DropMessage` for every message. -/
def dropAll : InterventionHandler Nat :=
  ⟨fun _ _ _ => .drop, fun _ _ => .drop, fun _ _ _ => .drop⟩

/-- An echo agent over `Nat` messages. -/
def echoNatAgent : Agent Nat := ⟨"EchoNat", fun m _ => .ok m⟩

/-- A factory producing the echo agent. -/
def echoNatFactory : Factory Nat := ⟨fun _ => .ok echoNatAgent⟩

/-- A runtime with the echo factory registered under type `"echo"` and one
drop-everything intervention handler. -/
def dropRuntime : RuntimeState Nat :=
  { init_state Nat with
      agent_factories := [("echo", echoNatFactory)],
      intervention_handlers := [dropAll],
      running := true }

/-- A send envelope already sitting at the head of `dropSendState`'s queue. -/
def dropSendEnv : SendMessageEnvelope Nat :=
  { message := 5, sender := none, recipient := ⟨"echo", "default"⟩, future := 0 }

/-- `dropRuntime` with a pending future and `dropSendEnv` queued. -/
def dropSendState : RuntimeState Nat :=
  { dropRuntime with
      message_queue := [.send dropSendEnv], futures := [.pending],
      put_count := 1 }

/-- A publish envelope used by the drop-semantics witness. -/
def dropPubEnv : PublishMessageEnvelope Nat :=
  { message := 5, sender := none, topic_id := ⟨"T", "default"⟩,
    message_id := "m1", token_cancelled := false }

/-- `dropRuntime` with `dropPubEnv` queued. -/
def dropPubState : RuntimeState Nat :=
  { dropRuntime with message_queue := [.publish dropPubEnv], put_count := 1 }

/-- A factory whose produced agent's concrete class is `"B"`. -/
def wrongClassFactory : Factory Nat := ⟨fun _ => .ok ⟨"B", fun m _ => .ok m⟩⟩

/-- The state `register_factory` produces when `wrongClassFactory` is
registered under type `"t"` with expected class `"A"`. -/
def wrongClassState : RuntimeState Nat :=
  { init_state Nat with
      agent_factories := [("t", factory_wrapper wrongClassFactory "A")] }

/-- A running runtime with only the echo factory registered. -/
def echoRuntime : RuntimeState Nat :=
  { init_state Nat with
      agent_factories := [("echo", echoNatFactory)], running := true }

/-- An echo agent over `String` messages, whose `on_message` returns its
input (spec scenario S1). -/
def echoStrAgent : Agent String := ⟨"EchoAgent", fun m _ => .ok m⟩

/-- A factory producing the `String` echo agent. -/
def echoStrFactory : Factory String := ⟨fun _ => .ok echoStrAgent⟩

/-- A running runtime with the `String` echo factory registered under type
`"echo"` and no intervention handlers. -/
def echoStrRuntime : RuntimeState String :=
  { init_state String with
      agent_factories := [("echo", echoStrFactory)], running := true }

/-- Agents of a publish fan-out scenario: three keys of the echo type. -/
def pubA : AgentId := ⟨"echo", "a"⟩

/-- The publish scenario's sender. -/
def pubS : AgentId := ⟨"echo", "s"⟩

/-- The third recipient of the publish scenario. -/
def pubB : AgentId := ⟨"echo", "b"⟩

/-- The topic of the publish scenario. -/
def pubTopic : TopicId := ⟨"T", "default"⟩

/-- A publish envelope sent by `pubS` on `pubTopic`. -/
def pubEnvW : PublishMessageEnvelope Nat :=
  { message := 9, sender := some pubS, topic_id := pubTopic,
    message_id := "m1", token_cancelled := false }

/-- A running runtime where the topic's recipients are `[pubA, pubS, pubB]`
(the sender IS among the matched recipients). -/
def pubRuntime : RuntimeState Nat :=
  { init_state Nat with
      agent_factories := [("echo", echoNatFactory)],
      subscriptions := [(pubTopic, [pubA, pubS, pubB])],
      running := true }

/-- The state after the collection loop of `process_publish pubRuntime
pubEnvW`: the sender was instantiated first (for logging), then the two
non-self recipients. -/
def pubCollState : RuntimeState Nat :=
  { pubRuntime with
      instantiated_agents := [(pubS, echoNatAgent), (pubA, echoNatAgent),
                              (pubB, echoNatAgent)],
      factory_calls := [pubS, pubA, pubB] }

/-- The deliveries the collection loop produces for `pubEnvW`. -/
def pubCollected : List (AgentId × Agent Nat × MessageContext Nat) :=
  [(pubA, echoNatAgent, publish_ctx pubEnvW),
   (pubB, echoNatAgent, publish_ctx pubEnvW)]

/-- A sender whose type has no registered factory. -/
def badS : AgentId := ⟨"ghost", "default"⟩

/-- A publish envelope whose sender's type is unregistered. -/
def badPubEnv : PublishMessageEnvelope Nat :=
  { message := 3, sender := some badS, topic_id := pubTopic,
    message_id := "m2", token_cancelled := false }

/-- A running runtime where `pubTopic` has one recipient and the publish
sender's type `"ghost"` is not registered. -/
def badPubRuntime : RuntimeState Nat :=
  { init_state Nat with
      agent_factories := [("echo", echoNatFactory)],
      subscriptions := [(pubTopic, [pubB])],
      running := true }

/-- The echo runtime with a Send envelope queued whose linked future was
cancelled before dispatch. -/
def cancelledSendState : RuntimeState Nat :=
  { echoRuntime with
      message_queue := [.send { message := 7, sender := none,
                                recipient := ⟨"echo", "default"⟩,
                                future := 0 }],
      futures := [.cancelled], put_count := 1 }

/-! ### Basic lemmas about the association list and list indexing -/

theorem alookup_append_some {α β : Type} [DecidableEq α] {l : List (α × β)}
    {a : α} {v : β} (l2 : List (α × β)) (h : alookup l a = some v) :
    alookup (l ++ l2) a = some v := by
  induction l with
  | nil => simp [alookup] at h
  | cons kv rest ih =>
    obtain ⟨k, w⟩ := kv
    by_cases hk : k = a
    · simp only [alookup, List.cons_append, if_pos hk] at h ⊢; exact h
    · simp only [alookup, List.cons_append, if_neg hk] at h ⊢; exact ih h

theorem alookup_append_self {α β : Type} [DecidableEq α] {l : List (α × β)}
    {a : α} (v : β) (h : alookup l a = none) :
    alookup (l ++ [(a, v)]) a = some v := by
  induction l with
  | nil => simp [alookup]
  | cons kv rest ih =>
    obtain ⟨k, w⟩ := kv
    by_cases hk : k = a
    · simp [alookup, hk] at h
    · simp only [alookup, List.cons_append, if_neg hk] at h ⊢; exact ih h

theorem getD_append_length {α : Type} (l : List α) (x d : α) :
    (l ++ [x]).getD l.length d = x := by
  induction l with
  | nil => rfl
  | cons y rest ih => simp [ih]

theorem set_append_length {α : Type} (l : List α) (x y : α) :
    (l ++ [x]).set l.length y = l ++ [y] := by
  induction l with
  | nil => rfl
  | cons z rest ih => simp [ih]

theorem getD_set_self {α : Type} (l : List α) (i : Nat) (x d : α)
    (h : i < l.length) : (l.set i x).getD i d = x := by
  induction l generalizing i with
  | nil => simp at h
  | cons y rest ih =>
    cases i with
    | zero => rfl
    | succ n => simpa using ih n (by simpa using h)

/-! ### The intervention pipeline -/

theorem pipeline_loop_all_ret
    (call : InterventionHandler Msg → Msg → HandlerOut Msg) (orig : Msg)
    (f : InterventionHandler Msg → Msg) (hs : List (InterventionHandler Msg))
    (envMsg : Msg) (hret : ∀ h ∈ hs, call h orig = .ret (f h)) :
    pipeline_loop call orig hs envMsg =
      (.delivered ((hs.getLast?).elim envMsg f),
        List.replicate hs.length orig) := by
  induction hs generalizing envMsg with
  | nil => rfl
  | cons h rest ih =>
    have hh : call h orig = .ret (f h) := hret h (List.mem_cons_self _ _)
    have hrest : ∀ h2 ∈ rest, call h2 orig = .ret (f h2) :=
      fun h2 hm => hret h2 (List.mem_cons_of_mem _ hm)
    simp only [pipeline_loop, hh, ih (f h) hrest]
    cases rest with
    | nil => simp [List.getLast?]
    | cons r rs =>
      cases hgl : (r :: rs).getLast? with
      | none =>
        rw [List.getLast?_eq_none_iff] at hgl
        exact absurd hgl (by simp)
      | some x =>
        simp [List.getLast?_cons_cons, hgl, List.replicate_succ]

theorem pipeline_loop_drop
    (call : InterventionHandler Msg → Msg → HandlerOut Msg) (orig : Msg)
    (pre : List (InterventionHandler Msg)) (hd : InterventionHandler Msg)
    (post : List (InterventionHandler Msg)) (envMsg : Msg)
    (hpre : ∀ h ∈ pre, ∃ m, call h orig = .ret m)
    (hdrop : call hd orig = .drop) :
    pipeline_loop call orig (pre ++ hd :: post) envMsg =
      (.dropped, List.replicate (pre.length + 1) orig) := by
  induction pre generalizing envMsg with
  | nil => simp only [List.nil_append, pipeline_loop, hdrop]; rfl
  | cons h rest ih =>
    obtain ⟨m, hm⟩ := hpre h (List.mem_cons_self _ _)
    have hrest : ∀ h2 ∈ rest, ∃ m2, call h2 orig = .ret m2 :=
      fun h2 hmem => hpre h2 (List.mem_cons_of_mem _ hmem)
    simp only [List.cons_append, pipeline_loop, hm, List.append_eq]
    rw [ih m hrest]
    simp [List.replicate_succ]

theorem process_next_nil (st : RuntimeState Msg)
    (hq : st.message_queue = []) : process_next st = st := by
  unfold process_next
  rw [hq]

theorem process_next_send (st : RuntimeState Msg) (e : SendMessageEnvelope Msg)
    (rest : List (Envelope Msg)) (hq : st.message_queue = .send e :: rest) :
    process_next st = dispatch_send { st with message_queue := rest } e := by
  unfold process_next
  rw [hq]

theorem process_next_publish (st : RuntimeState Msg)
    (e : PublishMessageEnvelope Msg) (rest : List (Envelope Msg))
    (hq : st.message_queue = .publish e :: rest) :
    process_next st = dispatch_publish { st with message_queue := rest } e := by
  unfold process_next
  rw [hq]

theorem process_next_response (st : RuntimeState Msg)
    (e : ResponseMessageEnvelope Msg) (rest : List (Envelope Msg))
    (hq : st.message_queue = .response e :: rest) :
    process_next st = dispatch_response { st with message_queue := rest } e := by
  unfold process_next
  rw [hq]

/-! ### Claim C1 -/

/-- **C1, counterexample.**  With the two increment handlers registered and a
Send envelope carrying `0`, the source's loop passes the ORIGINAL dequeued
message `0` to BOTH handlers (trace `[0, 0]`) although the first handler
returned `1`, refuting "the message passed to handler i+1 is the return
value of handler i"; the message delivered is `1` (the last handler applied
to the original), while the chained pipeline the claim describes would
deliver `2`. -/
theorem C1_counterexample :
    (pipeline_loop (fun h m => h.on_send m none ⟨"echo", "default"⟩) 0
        [incHandler, incHandler] 0).2 = [0, 0] ∧
    incHandler.on_send 0 none ⟨"echo", "default"⟩ = .ret 1 ∧
    (pipeline_loop (fun h m => h.on_send m none ⟨"echo", "default"⟩) 0
        [incHandler, incHandler] 0).1 = .delivered 1 ∧
    chained_pipeline (fun h m => h.on_send m none ⟨"echo", "default"⟩)
        [incHandler, incHandler] 0 = .delivered 2 :=
  ⟨rfl, rfl, rfl, rfl⟩

/-- **C1 (amended).**  For every envelope (Send, Publish, or Response)
dispatched with intervention handlers `[h1..hn]` configured, the handlers
are applied in registration order, but each handler receives the ORIGINAL
dequeued message, not the return value of its predecessor; the message
finally delivered (the envelope's message handed to the delivery task) is
the return value of the LAST handler applied to the original message (the
original message itself when no handler is configured). -/
theorem C1_pipeline_order
    (call : InterventionHandler Msg → Msg → HandlerOut Msg) (orig : Msg)
    (f : InterventionHandler Msg → Msg) (hs : List (InterventionHandler Msg))
    (hret : ∀ h ∈ hs, call h orig = .ret (f h)) :
    (pipeline_loop call orig hs orig).2 = List.replicate hs.length orig ∧
    (pipeline_loop call orig hs orig).1 =
      .delivered ((hs.getLast?).elim orig f) := by
  rw [pipeline_loop_all_ret call orig f hs orig hret]
  exact ⟨rfl, rfl⟩

/-- Witness for `C1_pipeline_order` at the concrete increment handlers. -/
theorem C1_pipeline_order_witness :
    (pipeline_loop (fun h m => h.on_send m none ⟨"echo", "default"⟩) 0
        [incHandler, incHandler] 0).2 = List.replicate 2 0 ∧
    (pipeline_loop (fun h m => h.on_send m none ⟨"echo", "default"⟩) 0
        [incHandler, incHandler] 0).1 =
      .delivered (([incHandler, incHandler].getLast?).elim 0 (fun _ => 1)) :=
  C1_pipeline_order _ 0 (fun _ => 1) [incHandler, incHandler]
    (by
      intro h hm
      rcases List.mem_cons.mp hm with h1 | hm2
      · subst h1; rfl
      · rcases List.mem_cons.mp hm2 with h1 | hm3
        · subst h1; rfl
        · simp at hm3)

/-! ### Claim C5 -/

/-- **C5.**  If an intervention handler returns DropMessage for a Send
envelope, the pipeline terminates (handlers after it never run: the trace
has exactly `pre.length + 1` entries), the caller's future is settled with
the MessageDropped error, and the recipient's `on_message` is never invoked
(`invoked` is unchanged); for a Publish envelope a DropMessage discards the
envelope without settling any handle (the state is unchanged apart from the
dequeue). -/
theorem C5_drop_semantics (st : RuntimeState Msg)
    (es : SendMessageEnvelope Msg) (ep : PublishMessageEnvelope Msg)
    (rest : List (Envelope Msg))
    (pre post : List (InterventionHandler Msg)) (hd : InterventionHandler Msg) :
    ((st.message_queue = .send es :: rest ∧
      st.intervention_handlers = pre ++ hd :: post ∧
      (∀ h ∈ pre, ∃ m, h.on_send es.message es.sender es.recipient = .ret m) ∧
      hd.on_send es.message es.sender es.recipient = .drop ∧
      es.future < st.futures.length ∧
      get_future st es.future = .pending) →
      process_next st =
        future_set_exception { st with message_queue := rest }
          es.future .messageDropped ∧
      get_future (process_next st) es.future = .error .messageDropped ∧
      (process_next st).invoked = st.invoked ∧
      (pipeline_loop (fun h m => h.on_send m es.sender es.recipient)
          es.message st.intervention_handlers es.message).2 =
        List.replicate (pre.length + 1) es.message) ∧
    ((st.message_queue = .publish ep :: rest ∧
      st.intervention_handlers = pre ++ hd :: post ∧
      (∀ h ∈ pre, ∃ m, h.on_publish ep.message ep.sender = .ret m) ∧
      hd.on_publish ep.message ep.sender = .drop) →
      process_next st = { st with message_queue := rest }) := by
  constructor
  · rintro ⟨hq, hh, hpre, hdrop, hlen, hfut⟩
    have hpl := pipeline_loop_drop
      (fun h m => h.on_send m es.sender es.recipient) es.message
      pre hd post es.message hpre hdrop
    have hnext : process_next st =
        future_set_exception { st with message_queue := rest }
          es.future .messageDropped := by
      rw [process_next_send st es rest hq]
      unfold dispatch_send
      simp only [hh] at hpl ⊢
      rw [hpl]
    refine ⟨hnext, ?_, ?_, ?_⟩
    · rw [hnext]
      unfold future_set_exception
      have hfut2 : get_future { st with message_queue := rest } es.future =
          FutureState.pending := hfut
      rw [hfut2]
      unfold get_future set_future
      exact getD_set_self st.futures es.future _ _ hlen
    · rw [hnext]
      unfold future_set_exception
      cases hres : get_future { st with message_queue := rest } es.future <;> rfl
    · rw [hh, hpl]
  · rintro ⟨hq, hh, hpre, hdrop⟩
    have hpl := pipeline_loop_drop
      (fun h m => h.on_publish m ep.sender) ep.message
      pre hd post ep.message hpre hdrop
    rw [process_next_publish st ep rest hq]
    unfold dispatch_publish
    simp only [hh] at hpl ⊢
    rw [hpl]

/-- Witness for `C5_drop_semantics`: the drop handler suppresses a queued
Send (future settled with MessageDropped, no invocation) and a queued
Publish (state unchanged apart from the dequeue). -/
theorem C5_drop_semantics_witness :
    (process_next dropSendState =
        future_set_exception { dropSendState with message_queue := [] }
          0 .messageDropped ∧
      get_future (process_next dropSendState) 0 = .error .messageDropped ∧
      (process_next dropSendState).invoked = dropSendState.invoked ∧
      (pipeline_loop (fun h m => h.on_send m dropSendEnv.sender dropSendEnv.recipient)
          dropSendEnv.message dropSendState.intervention_handlers
          dropSendEnv.message).2 = List.replicate 1 dropSendEnv.message) ∧
    process_next dropPubState = { dropPubState with message_queue := [] } :=
  ⟨(C5_drop_semantics dropSendState dropSendEnv dropPubEnv [] [] [] dropAll).1
      ⟨rfl, rfl, by simp, rfl, by decide, rfl⟩,
    (C5_drop_semantics dropPubState dropSendEnv dropPubEnv [] [] [] dropAll).2
      ⟨rfl, rfl, by simp, rfl⟩⟩

/-! ### Claim C2 -/

/-- **C2 (evidence of the code bug).**  One successful `put` of a Send
envelope into a runtime whose single intervention handler drops every
message: the dispatcher dequeues the envelope, settles the future with
MessageDropped and RETURNS WITHOUT `task_done` (source lines 456-458), so
after the queue is drained `task_done_count = 0` while `put_count = 1`.
The invariant "exactly one `task_done` per `put`, also when dropped by
interception" is therefore violated, and `queue.join()` (hence
`stop_when_idle`) can never observe balanced counts for this envelope. -/
theorem C2_task_done_missing :
    ((send_message dropRuntime 5 ⟨"echo", "default"⟩ none false).1).put_count = 1 ∧
    (process_next
      (send_message dropRuntime 5 ⟨"echo", "default"⟩ none false).1).message_queue = [] ∧
    (process_next
      (send_message dropRuntime 5 ⟨"echo", "default"⟩ none false).1).task_done_count = 0 ∧
    get_future (process_next
      (send_message dropRuntime 5 ⟨"echo", "default"⟩ none false).1) 0 =
      .error .messageDropped := by
  decide

/-! ### Claim C7 -/

/-- **C7, counterexample.**  Registering a factory whose produced agent has
concrete class `"B"` under expected class `"A"` does NOT raise: the
registration returns successfully (the stored wrapper is not invoked), so
the error does not surface to the `register_factory` caller; it surfaces
later, at the first `_get_agent` that invokes the wrapped factory. -/
theorem C7_counterexample :
    register_factory (init_state Nat) "t" wrongClassFactory "A" =
      .ok wrongClassState ∧
    (get_agent wrongClassState ⟨"t", "k"⟩).2 = .error .factoryTypeMismatch :=
  ⟨rfl, rfl⟩

/-- **C7 (amended).**  `register_factory` performs no class check at
registration time: for a fresh type it stores the checking wrapper and
returns successfully even when the factory would produce a non-expected
class; the FactoryTypeMismatch error (`ValueError`) surfaces at the first
`_get_agent` that invokes the stored factory. -/
theorem C7_deferred_check (st : RuntimeState Msg) (t : String) (f : Factory Msg)
    (expected_class : String) (a : Agent Msg) (agent_id : AgentId)
    (hfresh : alookup st.agent_factories t = none)
    (hprod : f.produce agent_id = .ok a)
    (hcls : a.cls ≠ expected_class)
    (htype : agent_id.type = t)
    (hinst : alookup st.instantiated_agents agent_id = none) :
    register_factory st t f expected_class =
      .ok { st with agent_factories :=
              st.agent_factories ++ [(t, factory_wrapper f expected_class)] } ∧
    (get_agent { st with agent_factories :=
        st.agent_factories ++ [(t, factory_wrapper f expected_class)] }
      agent_id).2 = .error .factoryTypeMismatch := by
  constructor
  · unfold register_factory
    rw [hfresh]
  · simp only [get_agent, hinst, htype]
    rw [alookup_append_self (factory_wrapper f expected_class) hfresh]
    unfold invoke_factory
    simp only [factory_wrapper, hprod, if_neg hcls]

/-- Witness for `C7_deferred_check` at the concrete mismatching factory. -/
theorem C7_deferred_check_witness :
    register_factory (init_state Nat) "t" wrongClassFactory "A" =
      .ok { init_state Nat with agent_factories :=
              (init_state Nat).agent_factories ++
                [("t", factory_wrapper wrongClassFactory "A")] } ∧
    (get_agent { init_state Nat with agent_factories :=
        (init_state Nat).agent_factories ++
          [("t", factory_wrapper wrongClassFactory "A")] }
      (⟨"t", "k"⟩ : AgentId)).2 = .error .factoryTypeMismatch :=
  C7_deferred_check (init_state Nat) "t" wrongClassFactory "A"
    ⟨"B", fun m _ => .ok m⟩ ⟨"t", "k"⟩ rfl rfl (by decide) rfl rfl

/-! ### Claim C8 -/

/-- **C8.**  `start` while running raises the lifecycle `RuntimeError`, and
`stop` / `stop_when_idle` / `stop_when` while not running raise the
lifecycle `RuntimeError`; in each case the call fails synchronously with an
`Except.error` (the raise precedes any state change, so the runtime state
is unchanged). -/
theorem C8_lifecycle_guards (st : RuntimeState Msg)
    (condition : RuntimeState Msg → Bool) :
    (st.running = true →
      start st = .error (.lifecycle "Runtime is already started")) ∧
    (st.running = false →
      stop st = .error (.lifecycle "Runtime is not started") ∧
      stop_when_idle st = .error (.lifecycle "Runtime is not started") ∧
      stop_when st condition = .error (.lifecycle "Runtime is not started")) := by
  constructor
  · intro h
    simp [start, h]
  · intro h
    simp [stop, stop_when_idle, stop_when, h]

/-- Witness for `C8_lifecycle_guards`: a running runtime rejects `start`,
and a stopped runtime rejects every `stop` variant. -/
theorem C8_lifecycle_guards_witness :
    start echoRuntime = .error (.lifecycle "Runtime is already started") ∧
    (stop (init_state Nat) = .error (.lifecycle "Runtime is not started") ∧
      stop_when_idle (init_state Nat) =
        .error (.lifecycle "Runtime is not started") ∧
      stop_when (init_state Nat) (fun _ => true) =
        .error (.lifecycle "Runtime is not started")) :=
  ⟨(C8_lifecycle_guards echoRuntime (fun _ => true)).1 rfl,
    (C8_lifecycle_guards (init_state Nat) (fun _ => true)).2 rfl⟩

/-! ### The agent cache -/

theorem get_agent_cached (st : RuntimeState Msg) (agent_id : AgentId)
    (a : Agent Msg) (h : alookup st.instantiated_agents agent_id = some a) :
    get_agent st agent_id = (st, .ok a) := by
  unfold get_agent
  rw [h]

theorem get_agent_eq_missing (st : RuntimeState Msg) (agent_id : AgentId)
    (h1 : alookup st.instantiated_agents agent_id = none)
    (h2 : alookup st.agent_factories agent_id.type = none) :
    get_agent st agent_id = (st, .error (.agentNotFound agent_id.type)) := by
  unfold get_agent
  rw [h1, h2]

theorem get_agent_eq_factory_err (st : RuntimeState Msg) (agent_id : AgentId)
    (f : Factory Msg) (e : Err)
    (h1 : alookup st.instantiated_agents agent_id = none)
    (h2 : alookup st.agent_factories agent_id.type = some f)
    (h3 : f.produce agent_id = .error e) :
    get_agent st agent_id =
      ({ st with factory_calls := st.factory_calls ++ [agent_id] }, .error e) := by
  unfold get_agent invoke_factory
  simp only [h1, h2, h3]

theorem get_agent_eq_factory_ok (st : RuntimeState Msg) (agent_id : AgentId)
    (f : Factory Msg) (a : Agent Msg)
    (h1 : alookup st.instantiated_agents agent_id = none)
    (h2 : alookup st.agent_factories agent_id.type = some f)
    (h3 : f.produce agent_id = .ok a) :
    get_agent st agent_id =
      ({ st with
          factory_calls := st.factory_calls ++ [agent_id],
          instantiated_agents := st.instantiated_agents ++ [(agent_id, a)] },
        .ok a) := by
  unfold get_agent invoke_factory
  simp only [h1, h2, h3]

theorem get_agent_fst_cases (st : RuntimeState Msg) (agent_id : AgentId) :
    (get_agent st agent_id).1 = st ∨
    (get_agent st agent_id).1 =
      { st with factory_calls := st.factory_calls ++ [agent_id] } ∨
    ∃ a, (get_agent st agent_id).1 =
      { st with
          factory_calls := st.factory_calls ++ [agent_id],
          instantiated_agents := st.instantiated_agents ++ [(agent_id, a)] } := by
  cases hl : alookup st.instantiated_agents agent_id with
  | some a => rw [get_agent_cached st agent_id a hl]; exact Or.inl rfl
  | none =>
    cases hf : alookup st.agent_factories agent_id.type with
    | none =>
      rw [get_agent_eq_missing st agent_id hl hf]
      exact Or.inl rfl
    | some f =>
      cases hp : f.produce agent_id with
      | error e =>
        rw [get_agent_eq_factory_err st agent_id f e hl hf hp]
        exact Or.inr (Or.inl rfl)
      | ok a =>
        rw [get_agent_eq_factory_ok st agent_id f a hl hf hp]
        exact Or.inr (Or.inr ⟨a, rfl⟩)

theorem get_agent_snd_congr (st1 st2 : RuntimeState Msg) (agent_id : AgentId)
    (hi : st1.instantiated_agents = st2.instantiated_agents)
    (hf : st1.agent_factories = st2.agent_factories) :
    (get_agent st1 agent_id).2 = (get_agent st2 agent_id).2 := by
  cases hl : alookup st1.instantiated_agents agent_id with
  | some a =>
    rw [get_agent_cached st1 agent_id a hl,
      get_agent_cached st2 agent_id a (hi ▸ hl)]
  | none =>
    have hl2 : alookup st2.instantiated_agents agent_id = none := hi ▸ hl
    cases hf1 : alookup st1.agent_factories agent_id.type with
    | none =>
      have hf2 : alookup st2.agent_factories agent_id.type = none := hf ▸ hf1
      rw [get_agent_eq_missing st1 agent_id hl hf1,
        get_agent_eq_missing st2 agent_id hl2 hf2]
    | some f =>
      have hf2 : alookup st2.agent_factories agent_id.type = some f := hf ▸ hf1
      cases hp : f.produce agent_id with
      | error e =>
        rw [get_agent_eq_factory_err st1 agent_id f e hl hf1 hp,
          get_agent_eq_factory_err st2 agent_id f e hl2 hf2 hp]
      | ok a =>
        rw [get_agent_eq_factory_ok st1 agent_id f a hl hf1 hp,
          get_agent_eq_factory_ok st2 agent_id f a hl2 hf2 hp]

theorem get_agent_ok_cached_after (st : RuntimeState Msg) (agent_id : AgentId)
    (a : Agent Msg) (h : (get_agent st agent_id).2 = .ok a) :
    alookup (get_agent st agent_id).1.instantiated_agents agent_id = some a := by
  cases hl : alookup st.instantiated_agents agent_id with
  | some b =>
    rw [get_agent_cached st agent_id b hl] at h ⊢
    have hb : b = a := by simpa using h
    rw [hb] at hl
    exact hl
  | none =>
    cases hf : alookup st.agent_factories agent_id.type with
    | none =>
      rw [get_agent_eq_missing st agent_id hl hf] at h
      simp at h
    | some f =>
      cases hp : f.produce agent_id with
      | error e =>
        rw [get_agent_eq_factory_err st agent_id f e hl hf hp] at h
        simp at h
      | ok b =>
        rw [get_agent_eq_factory_ok st agent_id f b hl hf hp] at h ⊢
        have hb : b = a := by simpa using h
        subst hb
        exact alookup_append_self b hl

theorem cache_mono_refl (st : RuntimeState Msg) : cache_mono st st :=
  fun _ _ h => h

theorem cache_mono_trans {st1 st2 st3 : RuntimeState Msg}
    (h1 : cache_mono st1 st2) (h2 : cache_mono st2 st3) : cache_mono st1 st3 :=
  fun a ag h => h2 a ag (h1 a ag h)

theorem cache_mono_of_fields {st st2 : RuntimeState Msg}
    (hi : st2.instantiated_agents = st.instantiated_agents) :
    cache_mono st st2 := by
  intro a ag hm
  rw [hi]
  exact hm

theorem inst_inv_of_fields {st st2 : RuntimeState Msg}
    (hc : st2.factory_calls = st.factory_calls)
    (hi : st2.instantiated_agents = st.instantiated_agents)
    (h : inst_inv st) : inst_inv st2 := by
  unfold inst_inv at h ⊢
  rw [hc, hi]
  exact h

theorem factories_total_of_fields {st st2 : RuntimeState Msg}
    (hf : st2.agent_factories = st.agent_factories) (h : factories_total st) :
    factories_total st2 := by
  unfold factories_total at h ⊢
  rw [hf]
  exact h

theorem preserves_cache_refl (st : RuntimeState Msg) : preserves_cache st st :=
  ⟨rfl, cache_mono_refl st, fun _ hI => hI⟩

theorem preserves_cache_trans {st1 st2 st3 : RuntimeState Msg}
    (h12 : preserves_cache st1 st2) (h23 : preserves_cache st2 st3) :
    preserves_cache st1 st3 :=
  ⟨h23.1.trans h12.1, cache_mono_trans h12.2.1 h23.2.1,
    fun hT hI => h23.2.2 (factories_total_of_fields h12.1 hT) (h12.2.2 hT hI)⟩

theorem preserves_cache_of_fields {st st2 : RuntimeState Msg}
    (hf : st2.agent_factories = st.agent_factories)
    (hi : st2.instantiated_agents = st.instantiated_agents)
    (hc : st2.factory_calls = st.factory_calls) : preserves_cache st st2 :=
  ⟨hf, cache_mono_of_fields hi, fun _ hI => inst_inv_of_fields hc hi hI⟩

theorem get_agent_inst_inv (st : RuntimeState Msg) (agent_id : AgentId)
    (hT : factories_total st) (hI : inst_inv st) :
    inst_inv (get_agent st agent_id).1 := by
  cases hl : alookup st.instantiated_agents agent_id with
  | some a => rw [get_agent_cached st agent_id a hl]; exact hI
  | none =>
    cases hf : alookup st.agent_factories agent_id.type with
    | none => rw [get_agent_eq_missing st agent_id hl hf]; exact hI
    | some f =>
      obtain ⟨ag, hag⟩ := hT agent_id.type f hf agent_id
      rw [get_agent_eq_factory_ok st agent_id f ag hl hf hag]
      have hnotin : agent_id ∉ st.factory_calls := by
        intro hmem
        obtain ⟨ag2, hag2⟩ := hI.2 agent_id hmem
        rw [hl] at hag2
        exact Option.noConfusion hag2
      constructor
      · show (st.factory_calls ++ [agent_id]).Nodup
        rw [List.nodup_append]
        exact ⟨hI.1, List.nodup_singleton _,
          fun x hx hx2 => by
            rw [List.mem_singleton] at hx2
            exact hnotin (hx2 ▸ hx)⟩
      · show ∀ b ∈ st.factory_calls ++ [agent_id], ∃ bg,
          alookup (st.instantiated_agents ++ [(agent_id, ag)]) b = some bg
        intro b hb
        rcases List.mem_append.mp hb with hb | hb
        · obtain ⟨bg, hbg⟩ := hI.2 b hb
          exact ⟨bg, alookup_append_some _ hbg⟩
        · rw [List.mem_singleton] at hb
          subst hb
          exact ⟨ag, alookup_append_self ag hl⟩

theorem get_agent_preserves (st : RuntimeState Msg) (agent_id : AgentId) :
    preserves_cache st (get_agent st agent_id).1 := by
  refine ⟨?_, ?_, fun hT hI => get_agent_inst_inv st agent_id hT hI⟩
  · rcases get_agent_fst_cases st agent_id with h | h | ⟨a, h⟩ <;> rw [h]
  · rcases get_agent_fst_cases st agent_id with h | h | ⟨a, h⟩ <;> rw [h]
    · exact cache_mono_refl st
    · exact fun a ag hm => hm
    · exact fun b bg hm => alookup_append_some _ hm

theorem task_done_preserves (st : RuntimeState Msg) :
    preserves_cache st (task_done st) :=
  preserves_cache_of_fields rfl rfl rfl

theorem put_queue_preserves (st : RuntimeState Msg) (env : Envelope Msg) :
    preserves_cache st (put_queue st env) :=
  preserves_cache_of_fields rfl rfl rfl

theorem future_set_exception_preserves (st : RuntimeState Msg) (i : Nat)
    (e : Err) : preserves_cache st (future_set_exception st i e) := by
  unfold future_set_exception
  cases get_future st i <;> exact preserves_cache_of_fields rfl rfl rfl

theorem future_set_result_unless_cancelled_preserves (st : RuntimeState Msg)
    (i : Nat) (m : Msg) :
    preserves_cache st (future_set_result_unless_cancelled st i m) := by
  unfold future_set_result_unless_cancelled
  cases get_future st i <;> exact preserves_cache_of_fields rfl rfl rfl

theorem cancel_future_preserves (st : RuntimeState Msg) (i : Nat) :
    preserves_cache st (cancel_future st i) := by
  unfold cancel_future
  cases get_future st i <;> exact preserves_cache_of_fields rfl rfl rfl

theorem settle_send_preserves (st : RuntimeState Msg)
    (e : SendMessageEnvelope Msg) (r : Except Err Msg) :
    preserves_cache st (settle_send st e r) := by
  cases r with
  | error err =>
    cases err <;>
      exact preserves_cache_trans (future_set_exception_preserves _ _ _)
        (task_done_preserves _)
  | ok response =>
    exact preserves_cache_trans (put_queue_preserves _ _) (task_done_preserves _)

theorem process_send_preserves (st : RuntimeState Msg)
    (e : SendMessageEnvelope Msg) : preserves_cache st (process_send st e) := by
  unfold process_send
  rcases hga : get_agent st e.recipient with ⟨st1, r⟩
  have hpre : preserves_cache st st1 := by
    have h := get_agent_preserves st e.recipient
    rw [hga] at h
    exact h
  cases r with
  | error err =>
    exact preserves_cache_trans hpre (preserves_cache_trans
      (future_set_exception_preserves st1 e.future err) (task_done_preserves _))
  | ok agent =>
    exact preserves_cache_trans hpre (preserves_cache_trans
      (preserves_cache_of_fields rfl rfl rfl) (settle_send_preserves _ _ _))

theorem state_bind_preserves {α β : Type} (st0 : RuntimeState Msg)
    (p : RuntimeState Msg × Except Err α)
    (k : RuntimeState Msg → α → RuntimeState Msg × Except Err β)
    (hp : preserves_cache st0 p.1)
    (hk : ∀ a, preserves_cache p.1 (k p.1 a).1) :
    preserves_cache st0 (state_bind p k).1 := by
  rcases p with ⟨st1, r⟩
  cases r with
  | error e => exact hp
  | ok a => exact preserves_cache_trans hp (hk a)

theorem resolve_sender_preserves (env : PublishMessageEnvelope Msg)
    (st : RuntimeState Msg) :
    preserves_cache st (resolve_sender env st).1 := by
  unfold resolve_sender
  cases env.sender with
  | none => exact preserves_cache_refl st
  | some s => exact get_agent_preserves st s

theorem collect_publish_preserves (env : PublishMessageEnvelope Msg)
    (rs : List AgentId) (st : RuntimeState Msg) :
    preserves_cache st (collect_publish env rs st).1 := by
  induction rs generalizing st with
  | nil => exact preserves_cache_refl st
  | cons r rest ih =>
    unfold collect_publish
    by_cases hs : env.sender = some r
    · rw [if_pos hs]
      exact ih st
    · rw [if_neg hs]
      refine state_bind_preserves st _ _ (resolve_sender_preserves env st) ?_
      intro u
      refine state_bind_preserves _ _ _ (get_agent_preserves _ r) ?_
      intro a
      refine state_bind_preserves _ _ _ (ih _) ?_
      intro ds
      exact preserves_cache_refl _

theorem gather_publish_fst (msg : Msg) (agent_id : AgentId) (a : Agent Msg)
    (ctx : MessageContext Msg)
    (rest : List (AgentId × Agent Msg × MessageContext Msg))
    (st : RuntimeState Msg) :
    (gather_publish msg ((agent_id, a, ctx) :: rest) st).1 =
      (gather_publish msg rest
        { st with invoked := st.invoked ++ [(agent_id, msg)] }).1 := by
  conv_lhs => unfold gather_publish
  cases a.on_message msg ctx with
  | error e => rfl
  | ok m => rfl

theorem gather_publish_preserves (msg : Msg)
    (ds : List (AgentId × Agent Msg × MessageContext Msg))
    (st : RuntimeState Msg) :
    preserves_cache st (gather_publish msg ds st).1 := by
  induction ds generalizing st with
  | nil => exact preserves_cache_refl st
  | cons d rest ih =>
    obtain ⟨aid, a, ctx⟩ := d
    rw [gather_publish_fst]
    exact preserves_cache_trans (preserves_cache_of_fields rfl rfl rfl) (ih _)

theorem process_publish_preserves (st : RuntimeState Msg)
    (env : PublishMessageEnvelope Msg) :
    preserves_cache st (process_publish st env) := by
  unfold process_publish
  rcases hcol : collect_publish env (get_subscribed_recipients st env.topic_id) st
    with ⟨st1, rc⟩
  have h1 : preserves_cache st st1 := by
    have h := collect_publish_preserves env
      (get_subscribed_recipients st env.topic_id) st
    rw [hcol] at h
    exact h
  cases rc with
  | error e =>
    show preserves_cache st (task_done (if e = Err.cancelledError then st1
      else { st1 with errors_logged := st1.errors_logged + 1 }))
    by_cases he : e = Err.cancelledError
    · rw [if_pos he]
      exact preserves_cache_trans h1 (task_done_preserves _)
    · rw [if_neg he]
      exact preserves_cache_trans h1 (preserves_cache_trans
        (preserves_cache_of_fields rfl rfl rfl) (task_done_preserves _))
  | ok ds =>
    show preserves_cache st (match gather_publish env.message ds st1 with
      | (st2, none) => task_done st2
      | (st2, some e) => task_done (if e = Err.cancelledError then st2
          else { st2 with errors_logged := st2.errors_logged + 1 }))
    rcases hg : gather_publish env.message ds st1 with ⟨st2, eo⟩
    have h2 : preserves_cache st1 st2 := by
      have h := gather_publish_preserves env.message ds st1
      rw [hg] at h
      exact h
    cases eo with
    | none =>
      exact preserves_cache_trans h1
        (preserves_cache_trans h2 (task_done_preserves _))
    | some e =>
      show preserves_cache st (task_done (if e = Err.cancelledError then st2
        else { st2 with errors_logged := st2.errors_logged + 1 }))
      by_cases he : e = Err.cancelledError
      · rw [if_pos he]
        exact preserves_cache_trans h1
          (preserves_cache_trans h2 (task_done_preserves _))
      · rw [if_neg he]
        exact preserves_cache_trans h1 (preserves_cache_trans h2
          (preserves_cache_trans (preserves_cache_of_fields rfl rfl rfl)
            (task_done_preserves _)))

theorem process_response_preserves (st : RuntimeState Msg)
    (e : ResponseMessageEnvelope Msg) :
    preserves_cache st (process_response st e) := by
  unfold process_response
  exact preserves_cache_trans (task_done_preserves st)
    (future_set_result_unless_cancelled_preserves _ _ _)

theorem dispatch_send_preserves (st : RuntimeState Msg)
    (e : SendMessageEnvelope Msg) :
    preserves_cache st (dispatch_send st e) := by
  unfold dispatch_send
  rcases hpl : pipeline_loop (fun h m => h.on_send m e.sender e.recipient)
      e.message st.intervention_handlers e.message with ⟨res, trace⟩
  cases res with
  | delivered m => exact process_send_preserves _ _
  | dropped => exact future_set_exception_preserves _ _ _
  | errored err => exact future_set_exception_preserves _ _ _

theorem dispatch_publish_preserves (st : RuntimeState Msg)
    (e : PublishMessageEnvelope Msg) :
    preserves_cache st (dispatch_publish st e) := by
  unfold dispatch_publish
  rcases hpl : pipeline_loop (fun h m => h.on_publish m e.sender)
      e.message st.intervention_handlers e.message with ⟨res, trace⟩
  cases res with
  | delivered m => exact process_publish_preserves _ _
  | dropped => exact preserves_cache_refl st
  | errored err => exact preserves_cache_of_fields rfl rfl rfl

theorem dispatch_response_preserves (st : RuntimeState Msg)
    (e : ResponseMessageEnvelope Msg) :
    preserves_cache st (dispatch_response st e) := by
  unfold dispatch_response
  rcases hpl : pipeline_loop (fun h m => h.on_response m e.sender e.recipient)
      e.message st.intervention_handlers e.message with ⟨res, trace⟩
  cases res with
  | delivered m => exact process_response_preserves _ _
  | dropped => exact future_set_exception_preserves _ _ _
  | errored err => exact future_set_exception_preserves _ _ _

theorem process_next_preserves (st : RuntimeState Msg) :
    preserves_cache st (process_next st) := by
  rcases hq : st.message_queue with _ | ⟨env, rest⟩
  · rw [process_next_nil st hq]
    exact preserves_cache_refl st
  · have h0 : preserves_cache st ({ st with message_queue := rest }) :=
      preserves_cache_of_fields rfl rfl rfl
    cases env with
    | send e =>
      rw [process_next_send st e rest hq]
      exact preserves_cache_trans h0 (dispatch_send_preserves _ _)
    | publish e =>
      rw [process_next_publish st e rest hq]
      exact preserves_cache_trans h0 (dispatch_publish_preserves _ _)
    | response e =>
      rw [process_next_response st e rest hq]
      exact preserves_cache_trans h0 (dispatch_response_preserves _ _)

theorem send_message_preserves (st : RuntimeState Msg) (m : Msg)
    (recipient : AgentId) (sender : Option AgentId) (tok : Bool) :
    preserves_cache st (send_message st m recipient sender tok).1 := by
  unfold send_message
  cases tok with
  | false => exact preserves_cache_of_fields rfl rfl rfl
  | true =>
    exact preserves_cache_trans (preserves_cache_of_fields rfl rfl rfl)
      (cancel_future_preserves _ _)

theorem publish_message_preserves (st : RuntimeState Msg) (m : Msg)
    (topic_id : TopicId) (sender : Option AgentId) (message_id : String) :
    preserves_cache st (publish_message st m topic_id sender message_id) :=
  put_queue_preserves _ _

theorem apply_op_preserves (st : RuntimeState Msg) (op : RuntimeOp Msg) :
    preserves_cache st (apply_op st op) := by
  cases op with
  | sendOp m r s t => exact send_message_preserves st m r s t
  | publishOp m t s mid => exact publish_message_preserves st m t s mid
  | stepOp => exact process_next_preserves st
  | getAgentOp a => exact get_agent_preserves st a
  | cancelOp i => exact cancel_future_preserves st i

/-! ### Claim C9 -/

/-- **C9.**  Lazy singleton: starting from a state satisfying the invariant
(with total factories), any sequence of runtime operations preserves it —
`factory_calls` stays duplicate-free, so the factory bound to an AgentId is
invoked at most once across the runtime's lifetime; cached instances are
never evicted (`cache_mono`); and whenever an instance is cached, a later
`_get_agent` returns exactly the cached instance with the state unchanged
(no factory invocation). -/
theorem apply_ops_preserves (st : RuntimeState Msg)
    (ops : List (RuntimeOp Msg)) :
    preserves_cache st (apply_ops st ops) := by
  induction ops generalizing st with
  | nil => exact preserves_cache_refl st
  | cons op rest ih =>
    exact preserves_cache_trans (apply_op_preserves st op) (ih _)

theorem C9_lazy_singleton (st : RuntimeState Msg) (ops : List (RuntimeOp Msg))
    (hT : factories_total st) (hI : inst_inv st) :
    inst_inv (apply_ops st ops) ∧ cache_mono st (apply_ops st ops) ∧
    (∀ (st2 : RuntimeState Msg) (a : AgentId) (ag : Agent Msg),
      alookup st2.instantiated_agents a = some ag →
      get_agent st2 a = (st2, .ok ag)) :=
  ⟨(apply_ops_preserves st ops).2.2 hT hI, (apply_ops_preserves st ops).2.1,
    fun st2 a ag h => get_agent_cached st2 a ag h⟩

/-- Witness for `C9_lazy_singleton`: the echo runtime driven through two
explicit agent resolutions, a send and two dispatcher steps. -/
theorem C9_lazy_singleton_witness :
    inst_inv (apply_ops echoRuntime
      [.getAgentOp ⟨"echo", "default"⟩, .getAgentOp ⟨"echo", "default"⟩,
        .sendOp 3 ⟨"echo", "default"⟩ none false, .stepOp, .stepOp]) ∧
    cache_mono echoRuntime (apply_ops echoRuntime
      [.getAgentOp ⟨"echo", "default"⟩, .getAgentOp ⟨"echo", "default"⟩,
        .sendOp 3 ⟨"echo", "default"⟩ none false, .stepOp, .stepOp]) ∧
    (∀ (st2 : RuntimeState Nat) (a : AgentId) (ag : Agent Nat),
      alookup st2.instantiated_agents a = some ag →
      get_agent st2 a = (st2, .ok ag)) :=
  C9_lazy_singleton echoRuntime
    [.getAgentOp ⟨"echo", "default"⟩, .getAgentOp ⟨"echo", "default"⟩,
      .sendOp 3 ⟨"echo", "default"⟩ none false, .stepOp, .stepOp]
    (by
      intro t f h a
      by_cases ht : "echo" = t
      · simp only [echoRuntime, init_state, alookup, if_pos ht] at h
        cases h
        exact ⟨echoNatAgent, rfl⟩
      · simp only [echoRuntime, init_state, alookup, if_neg ht] at h
        cases h)
    (by
      refine ⟨List.nodup_nil, ?_⟩
      intro a ha
      simp only [echoRuntime, init_state] at ha
      cases ha)

/-! ### Computation lemmas for the send round-trip -/

theorem get_agent_frame (st : RuntimeState Msg) (agent_id : AgentId) :
    (get_agent st agent_id).1.message_queue = st.message_queue ∧
    (get_agent st agent_id).1.intervention_handlers =
      st.intervention_handlers ∧
    (get_agent st agent_id).1.futures = st.futures ∧
    (get_agent st agent_id).1.invoked = st.invoked ∧
    (get_agent st agent_id).1.put_count = st.put_count ∧
    (get_agent st agent_id).1.task_done_count = st.task_done_count ∧
    (get_agent st agent_id).1.subscriptions = st.subscriptions := by
  rcases get_agent_fst_cases st agent_id with h | h | ⟨a, h⟩ <;> rw [h] <;>
    exact ⟨rfl, rfl, rfl, rfl, rfl, rfl, rfl⟩

theorem send_ctx_congr (st st1 : RuntimeState Msg)
    (e : SendMessageEnvelope Msg) (h : st1.futures = st.futures) :
    send_ctx st1 e = send_ctx st e := by
  unfold send_ctx get_future
  rw [h]

theorem process_send_ok (st : RuntimeState Msg) (e : SendMessageEnvelope Msg)
    (a : Agent Msg) (r : Msg)
    (hga : (get_agent st e.recipient).2 = .ok a)
    (hon : a.on_message e.message (send_ctx st e) = .ok r) :
    process_send st e =
      task_done (put_queue
        { (get_agent st e.recipient).1 with
            invoked := (get_agent st e.recipient).1.invoked ++
              [(e.recipient, e.message)] }
        (.response { message := r, future := e.future,
                     sender := e.recipient, recipient := e.sender })) := by
  unfold process_send
  rcases hga2 : get_agent st e.recipient with ⟨st1, rr⟩
  rw [hga2] at hga
  have hrr : rr = .ok a := hga
  subst hrr
  have hfu : st1.futures = st.futures := by
    have h := (get_agent_frame st e.recipient).2.2.1
    rw [hga2] at h
    exact h
  show settle_send
      { st1 with invoked := st1.invoked ++ [(e.recipient, e.message)] } e
      (a.on_message e.message (send_ctx st1 e)) =
    task_done (put_queue
      { st1 with invoked := st1.invoked ++ [(e.recipient, e.message)] }
      (.response { message := r, future := e.future,
                   sender := e.recipient, recipient := e.sender }))
  rw [send_ctx_congr st st1 e hfu, hon]
  rfl

theorem dispatch_send_no_handlers (st : RuntimeState Msg)
    (e : SendMessageEnvelope Msg) (hint : st.intervention_handlers = []) :
    dispatch_send st e = process_send st e := by
  unfold dispatch_send
  rw [hint]
  rfl

theorem dispatch_response_no_handlers (st : RuntimeState Msg)
    (e : ResponseMessageEnvelope Msg) (hint : st.intervention_handlers = []) :
    dispatch_response st e = process_response st e := by
  unfold dispatch_response
  rw [hint]
  rfl

theorem dispatch_publish_no_handlers (st : RuntimeState Msg)
    (e : PublishMessageEnvelope Msg) (hint : st.intervention_handlers = []) :
    dispatch_publish st e = process_publish st e := by
  unfold dispatch_publish
  rw [hint]
  rfl

theorem send_message_eq_registered (st : RuntimeState Msg) (m : Msg)
    (recipient : AgentId) (sender : Option AgentId) (f : Factory Msg)
    (hreg : alookup st.agent_factories recipient.type = some f) :
    send_message st m recipient sender false =
      ({ st with
          futures := st.futures ++ [FutureState.pending],
          message_queue := st.message_queue ++
            [.send { message := m, sender := sender, recipient := recipient,
                     future := st.futures.length }],
          put_count := st.put_count + 1 }, st.futures.length) := by
  unfold send_message put_queue
  rw [hreg]
  rfl

/-! ### Claim C3 -/

/-- **C3.**  With no intervention handlers configured, a `send_message` to a
recipient whose type is registered and whose agent's `on_message` returns
`r` without raising resolves the caller's future to exactly `r`: after the
dispatcher processes the Send envelope, a Response envelope carrying `r`
re-enters the queue, and processing it settles the future with `r`. -/
theorem C3_send_resolves (st : RuntimeState Msg) (m r : Msg)
    (recipient : AgentId) (sender : Option AgentId) (a : Agent Msg)
    (f : Factory Msg)
    (hq : st.message_queue = [])
    (hint : st.intervention_handlers = [])
    (hreg : alookup st.agent_factories recipient.type = some f)
    (hres : (get_agent st recipient).2 = .ok a)
    (hon : a.on_message m
      { sender := sender, topic_id := none, is_rpc := true,
        token_cancelled := false, message_id := "NOT_DEFINED_TODO_FIX" } =
      .ok r) :
    (process_next (send_message st m recipient sender false).1).message_queue =
      [.response { message := r, future := st.futures.length,
                   sender := recipient, recipient := sender }] ∧
    get_future (process_next (process_next
        (send_message st m recipient sender false).1)) st.futures.length =
      .resolved r := by
  have h1 : (send_message st m recipient sender false).1 =
      { st with
          futures := st.futures ++ [FutureState.pending],
          message_queue := st.message_queue ++
            [.send { message := m, sender := sender, recipient := recipient,
                     future := st.futures.length }],
          put_count := st.put_count + 1 } := by
    rw [send_message_eq_registered st m recipient sender f hreg]
  rw [h1]
  set env : SendMessageEnvelope Msg :=
    { message := m, sender := sender, recipient := recipient,
      future := st.futures.length } with henv
  set st1 : RuntimeState Msg :=
    { st with
        futures := st.futures ++ [FutureState.pending],
        message_queue := st.message_queue ++ [.send env],
        put_count := st.put_count + 1 } with hst1
  have hq1 : st1.message_queue = .send env :: [] := by
    show st.message_queue ++ [.send env] = _
    rw [hq]
    rfl
  rw [process_next_send st1 env [] hq1]
  rw [dispatch_send_no_handlers ({ st1 with message_queue := [] }) env hint]
  have hgaA : (get_agent ({ st1 with message_queue := [] }) env.recipient).2 =
      .ok a := by
    rw [get_agent_snd_congr ({ st1 with message_queue := [] }) st
      env.recipient rfl rfl]
    exact hres
  have honA : a.on_message env.message
      (send_ctx ({ st1 with message_queue := [] }) env) = .ok r := by
    have hf : get_future ({ st1 with message_queue := [] } : RuntimeState Msg)
        env.future = FutureState.pending := by
      show (st.futures ++ [FutureState.pending]).getD st.futures.length
        FutureState.pending = FutureState.pending
      exact getD_append_length _ _ _
    unfold send_ctx
    rw [hf]
    exact hon
  rw [process_send_ok ({ st1 with message_queue := [] }) env a r hgaA honA]
  have hqueue : (task_done (put_queue
      { (get_agent ({ st1 with message_queue := [] }) env.recipient).1 with
          invoked := (get_agent ({ st1 with message_queue := [] })
              env.recipient).1.invoked ++ [(env.recipient, env.message)] }
      (.response { message := r, future := env.future,
                   sender := env.recipient,
                   recipient := env.sender }))).message_queue =
      .response { message := r, future := st.futures.length,
                  sender := recipient, recipient := sender } :: [] := by
    show (get_agent ({ st1 with message_queue := [] })
        env.recipient).1.message_queue ++
      [.response { message := r, future := env.future,
                   sender := env.recipient, recipient := env.sender }] = _
    rw [(get_agent_frame ({ st1 with message_queue := [] }) env.recipient).1]
    rfl
  refine ⟨hqueue, ?_⟩
  rw [process_next_response _ _ [] hqueue]
  have hintB : ({ task_done (put_queue
      { (get_agent ({ st1 with message_queue := [] }) env.recipient).1 with
          invoked := (get_agent ({ st1 with message_queue := [] })
              env.recipient).1.invoked ++ [(env.recipient, env.message)] }
      (.response { message := r, future := env.future,
                   sender := env.recipient, recipient := env.sender }))
      with message_queue := [] } : RuntimeState Msg).intervention_handlers =
      [] := by
    show (get_agent ({ st1 with message_queue := [] })
        env.recipient).1.intervention_handlers = []
    rw [(get_agent_frame ({ st1 with message_queue := [] })
      env.recipient).2.1]
    exact hint
  rw [dispatch_response_no_handlers _ _ hintB]
  unfold process_response
  have hfuEq : (get_agent ({ st1 with message_queue := [] })
      env.recipient).1.futures = st.futures ++ [FutureState.pending] := by
    rw [(get_agent_frame ({ st1 with message_queue := [] })
      env.recipient).2.2.1]
  have hfB : get_future (task_done ({ task_done (put_queue
      { (get_agent ({ st1 with message_queue := [] }) env.recipient).1 with
          invoked := (get_agent ({ st1 with message_queue := [] })
              env.recipient).1.invoked ++ [(env.recipient, env.message)] }
      (.response { message := r, future := env.future,
                   sender := env.recipient, recipient := env.sender }))
      with message_queue := [] } : RuntimeState Msg))
      (ResponseMessageEnvelope.future
        { message := r, future := st.futures.length,
          sender := recipient, recipient := sender }) =
      FutureState.pending := by
    show ((get_agent ({ st1 with message_queue := [] })
        env.recipient).1.futures).getD st.futures.length FutureState.pending =
      FutureState.pending
    rw [hfuEq]
    exact getD_append_length _ _ _
  rw [future_set_result_unless_cancelled]
  rw [hfB]
  show (((get_agent ({ st1 with message_queue := [] })
      env.recipient).1.futures).set st.futures.length
        (FutureState.resolved r)).getD st.futures.length FutureState.pending =
    FutureState.resolved r
  rw [hfuEq, set_append_length, getD_append_length]

/-- Witness for `C3_send_resolves`: the S1 echo scenario —
`send_message "hi" (AgentId "echo" "default")` resolves to `"hi"`. -/
theorem C3_send_resolves_witness :
    (process_next
      (send_message echoStrRuntime "hi" ⟨"echo", "default"⟩ none
        false).1).message_queue =
      [.response { message := "hi", future := 0,
                   sender := ⟨"echo", "default"⟩, recipient := none }] ∧
    get_future (process_next (process_next
      (send_message echoStrRuntime "hi" ⟨"echo", "default"⟩ none false).1)) 0 =
      .resolved "hi" :=
  C3_send_resolves echoStrRuntime "hi" "hi" ⟨"echo", "default"⟩ none
    echoStrAgent echoStrFactory rfl rfl rfl rfl rfl

/-! ### Claim C6 -/

/-- **C6, counterexample.**  Echo runtime, `send_message 7` with the token
cancelled at link time (before the dispatcher processes the envelope): the
handle does resolve as Cancelled (the future stays cancelled), but the
recipient's `on_message` IS invoked — the dispatcher and `_process_send`
never consult the future or the token before calling the handler, refuting
"the recipient agent's on_message is never invoked". -/
theorem C6_counterexample :
    (process_next (process_next
      (send_message echoRuntime 7 ⟨"echo", "default"⟩ none true).1)).invoked =
      [(⟨"echo", "default"⟩, 7)] ∧
    get_future (process_next (process_next
      (send_message echoRuntime 7 ⟨"echo", "default"⟩ none true).1)) 0 =
      .cancelled := by
  decide

/-- **C6 (amended).**  For a Send envelope whose cancellation token was
cancelled before the dispatcher processes it (the linked future is already
cancelled at dispatch), the handle resolves as Cancelled — the future stays
cancelled and is never overwritten by the Response — but the recipient's
`on_message` IS still invoked: delivery is not suppressed, and the handler
observes the cancellation only through the token in its context
(`token_cancelled = true`). -/
theorem C6_cancelled_still_invoked (st : RuntimeState Msg) (r : Msg)
    (e : SendMessageEnvelope Msg) (a : Agent Msg)
    (hq : st.message_queue = [.send e])
    (hint : st.intervention_handlers = [])
    (hfut : get_future st e.future = .cancelled)
    (hga : (get_agent st e.recipient).2 = .ok a)
    (hon : a.on_message e.message
      { sender := e.sender, topic_id := none, is_rpc := true,
        token_cancelled := true, message_id := "NOT_DEFINED_TODO_FIX" } =
      .ok r) :
    (process_next st).invoked = st.invoked ++ [(e.recipient, e.message)] ∧
    get_future (process_next (process_next st)) e.future = .cancelled := by
  rw [process_next_send st e [] hq]
  rw [dispatch_send_no_handlers ({ st with message_queue := [] }) e hint]
  have hgaA : (get_agent ({ st with message_queue := [] }) e.recipient).2 =
      .ok a := by
    rw [get_agent_snd_congr ({ st with message_queue := [] }) st
      e.recipient rfl rfl]
    exact hga
  have honA : a.on_message e.message
      (send_ctx ({ st with message_queue := [] }) e) = .ok r := by
    have hfA : get_future ({ st with message_queue := [] } : RuntimeState Msg)
        e.future = FutureState.cancelled := hfut
    unfold send_ctx
    rw [hfA]
    exact hon
  rw [process_send_ok ({ st with message_queue := [] }) e a r hgaA honA]
  have hqueue : (task_done (put_queue
      { (get_agent ({ st with message_queue := [] }) e.recipient).1 with
          invoked := (get_agent ({ st with message_queue := [] })
              e.recipient).1.invoked ++ [(e.recipient, e.message)] }
      (.response { message := r, future := e.future,
                   sender := e.recipient,
                   recipient := e.sender }))).message_queue =
      .response { message := r, future := e.future, sender := e.recipient,
                  recipient := e.sender } :: [] := by
    show (get_agent ({ st with message_queue := [] })
        e.recipient).1.message_queue ++
      [.response { message := r, future := e.future,
                   sender := e.recipient, recipient := e.sender }] = _
    rw [(get_agent_frame ({ st with message_queue := [] }) e.recipient).1]
    rfl
  constructor
  · show (get_agent ({ st with message_queue := [] })
        e.recipient).1.invoked ++ [(e.recipient, e.message)] = _
    rw [(get_agent_frame ({ st with message_queue := [] })
      e.recipient).2.2.2.1]
  · rw [process_next_response _ _ [] hqueue]
    have hintB : ({ task_done (put_queue
        { (get_agent ({ st with message_queue := [] }) e.recipient).1 with
            invoked := (get_agent ({ st with message_queue := [] })
                e.recipient).1.invoked ++ [(e.recipient, e.message)] }
        (.response { message := r, future := e.future,
                     sender := e.recipient, recipient := e.sender }))
        with message_queue := [] } : RuntimeState Msg).intervention_handlers =
        [] := by
      show (get_agent ({ st with message_queue := [] })
          e.recipient).1.intervention_handlers = []
      rw [(get_agent_frame ({ st with message_queue := [] })
        e.recipient).2.1]
      exact hint
    rw [dispatch_response_no_handlers _ _ hintB]
    have hfB2 : get_future (task_done ({ task_done (put_queue
        { (get_agent ({ st with message_queue := [] }) e.recipient).1 with
            invoked := (get_agent ({ st with message_queue := [] })
                e.recipient).1.invoked ++ [(e.recipient, e.message)] }
        (.response { message := r, future := e.future,
                     sender := e.recipient, recipient := e.sender }))
        with message_queue := [] } : RuntimeState Msg)) e.future =
        FutureState.cancelled := by
      show ((get_agent ({ st with message_queue := [] })
          e.recipient).1.futures).getD e.future FutureState.pending =
        FutureState.cancelled
      rw [(get_agent_frame ({ st with message_queue := [] })
        e.recipient).2.2.1]
      exact hfut
    rw [process_response]
    rw [future_set_result_unless_cancelled]
    rw [hfB2]
    exact hfB2

/-- Witness for `C6_cancelled_still_invoked` at the concrete cancelled
send. -/
theorem C6_cancelled_still_invoked_witness :
    (process_next cancelledSendState).invoked =
      cancelledSendState.invoked ++ [(⟨"echo", "default"⟩, 7)] ∧
    get_future (process_next (process_next cancelledSendState)) 0 =
      .cancelled :=
  C6_cancelled_still_invoked cancelledSendState 7
    { message := 7, sender := none, recipient := ⟨"echo", "default"⟩,
      future := 0 }
    echoNatAgent rfl rfl rfl rfl rfl

/-! ### Computation lemmas for publish delivery -/

theorem state_bind_eq_error {α β : Type} (st : RuntimeState Msg) (e : Err)
    (k : RuntimeState Msg → α → RuntimeState Msg × Except Err β) :
    state_bind ((st, Except.error e) : RuntimeState Msg × Except Err α) k =
      (st, .error e) := rfl

theorem state_bind_eq_ok {α β : Type} (st : RuntimeState Msg) (a : α)
    (k : RuntimeState Msg → α → RuntimeState Msg × Except Err β) :
    state_bind (st, Except.ok a) k = k st a := rfl

theorem state_bind_proj {α β γ : Type} (f : RuntimeState Msg → γ)
    (st0 : RuntimeState Msg) (p : RuntimeState Msg × Except Err α)
    (k : RuntimeState Msg → α → RuntimeState Msg × Except Err β)
    (hp : f p.1 = f st0) (hk : ∀ a, f (k p.1 a).1 = f p.1) :
    f (state_bind p k).1 = f st0 := by
  rcases p with ⟨st1, r⟩
  cases r with
  | error e => exact hp
  | ok a => exact (hk a).trans hp

theorem collect_publish_proj {γ : Type} (f : RuntimeState Msg → γ)
    (hf : ∀ st a, f (get_agent st a).1 = f st)
    (env : PublishMessageEnvelope Msg) (rs : List AgentId) :
    ∀ st, f (collect_publish env rs st).1 = f st := by
  induction rs with
  | nil => intro st; rfl
  | cons r rest ih =>
    intro st
    unfold collect_publish
    by_cases hr : env.sender = some r
    · rw [if_pos hr]
      exact ih st
    · rw [if_neg hr]
      refine state_bind_proj f st _ _ ?_ ?_
      · unfold resolve_sender
        cases env.sender with
        | none => rfl
        | some s => exact hf st s
      · intro u
        refine state_bind_proj f _ _ _ (hf _ r) ?_
        intro a
        refine state_bind_proj f _ _ _ (ih _) ?_
        intro ds
        rfl

theorem gather_publish_invoked (msg : Msg)
    (ds : List (AgentId × Agent Msg × MessageContext Msg))
    (st : RuntimeState Msg) :
    (gather_publish msg ds st).1.invoked =
      st.invoked ++ ds.map (fun d => (d.1, msg)) := by
  induction ds generalizing st with
  | nil => simp [gather_publish]
  | cons d rest ih =>
    obtain ⟨aid, a, ctx⟩ := d
    rw [gather_publish_fst, ih]
    simp

theorem gather_publish_instances (msg : Msg)
    (ds : List (AgentId × Agent Msg × MessageContext Msg))
    (st : RuntimeState Msg) :
    (gather_publish msg ds st).1.instantiated_agents =
      st.instantiated_agents := by
  induction ds generalizing st with
  | nil => rfl
  | cons d rest ih =>
    obtain ⟨aid, a, ctx⟩ := d
    rw [gather_publish_fst]
    exact ih _

theorem process_publish_invoked_ok (st : RuntimeState Msg)
    (env : PublishMessageEnvelope Msg) (st1 : RuntimeState Msg)
    (ds : List (AgentId × Agent Msg × MessageContext Msg))
    (hcol : collect_publish env (get_subscribed_recipients st env.topic_id) st
      = (st1, .ok ds)) :
    (process_publish st env).invoked =
      (gather_publish env.message ds st1).1.invoked := by
  unfold process_publish
  rw [hcol]
  show (match gather_publish env.message ds st1 with
    | (st2, none) => task_done st2
    | (st2, some e) => task_done (if e = Err.cancelledError then st2
        else { st2 with errors_logged := st2.errors_logged + 1 })).invoked =
    (gather_publish env.message ds st1).1.invoked
  rcases hg : gather_publish env.message ds st1 with ⟨st2, eo⟩
  cases eo with
  | none => rfl
  | some e =>
    show (task_done (if e = Err.cancelledError then st2
      else { st2 with errors_logged := st2.errors_logged + 1 })).invoked =
      st2.invoked
    by_cases he : e = Err.cancelledError
    · rw [if_pos he]
      rfl
    · rw [if_neg he]
      rfl

theorem process_publish_instances_ok (st : RuntimeState Msg)
    (env : PublishMessageEnvelope Msg) (st1 : RuntimeState Msg)
    (ds : List (AgentId × Agent Msg × MessageContext Msg))
    (hcol : collect_publish env (get_subscribed_recipients st env.topic_id) st
      = (st1, .ok ds)) :
    (process_publish st env).instantiated_agents =
      st1.instantiated_agents := by
  unfold process_publish
  rw [hcol]
  show (match gather_publish env.message ds st1 with
    | (st2, none) => task_done st2
    | (st2, some e) => task_done (if e = Err.cancelledError then st2
        else { st2 with errors_logged := st2.errors_logged + 1 })).instantiated_agents =
    st1.instantiated_agents
  rcases hg : gather_publish env.message ds st1 with ⟨st2, eo⟩
  have hinst : st2.instantiated_agents = st1.instantiated_agents := by
    have h := gather_publish_instances env.message ds st1
    rw [hg] at h
    exact h
  cases eo with
  | none => exact hinst
  | some e =>
    show (task_done (if e = Err.cancelledError then st2
      else { st2 with errors_logged := st2.errors_logged + 1 })).instantiated_agents =
      st1.instantiated_agents
    by_cases he : e = Err.cancelledError
    · rw [if_pos he]
      exact hinst
    · rw [if_neg he]
      exact hinst

theorem process_publish_invoked_error (st : RuntimeState Msg)
    (env : PublishMessageEnvelope Msg) (st1 : RuntimeState Msg) (e : Err)
    (hcol : collect_publish env (get_subscribed_recipients st env.topic_id) st
      = (st1, .error e)) :
    (process_publish st env).invoked = st1.invoked := by
  unfold process_publish
  rw [hcol]
  show (task_done (if e = Err.cancelledError then st1
    else { st1 with errors_logged := st1.errors_logged + 1 })).invoked =
    st1.invoked
  by_cases he : e = Err.cancelledError
  · rw [if_pos he]
    rfl
  · rw [if_neg he]
    rfl

theorem process_publish_error_logged (st : RuntimeState Msg)
    (env : PublishMessageEnvelope Msg) (st1 : RuntimeState Msg) (e : Err)
    (hcol : collect_publish env (get_subscribed_recipients st env.topic_id) st
      = (st1, .error e))
    (hne : e ≠ Err.cancelledError) :
    process_publish st env =
      task_done { st1 with errors_logged := st1.errors_logged + 1 } := by
  unfold process_publish
  rw [hcol]
  show task_done (if e = Err.cancelledError then st1
    else { st1 with errors_logged := st1.errors_logged + 1 }) = _
  rw [if_neg hne]

theorem collect_publish_cons_ok (env : PublishMessageEnvelope Msg)
    (r : AgentId) (rest : List AgentId) (st st1 : RuntimeState Msg)
    (ds : List (AgentId × Agent Msg × MessageContext Msg))
    (hr : ¬(env.sender = some r))
    (hcol : collect_publish env (r :: rest) st = (st1, .ok ds)) :
    ∃ u a ds2 stA stB,
      resolve_sender env st = (stA, Except.ok u) ∧
      get_agent stA r = (stB, Except.ok a) ∧
      collect_publish env rest stB = (st1, .ok ds2) ∧
      ds = (r, a, publish_ctx env) :: ds2 := by
  unfold collect_publish at hcol
  rw [if_neg hr] at hcol
  rcases hres : resolve_sender env st with ⟨stA, ru⟩
  rw [hres] at hcol
  cases ru with
  | error e =>
    rw [state_bind_eq_error] at hcol
    simp at hcol
  | ok u =>
    simp only [state_bind_eq_ok] at hcol
    rcases hga : get_agent stA r with ⟨stB, ra⟩
    rw [hga] at hcol
    cases ra with
    | error e =>
      rw [state_bind_eq_error] at hcol
      simp at hcol
    | ok a =>
      simp only [state_bind_eq_ok] at hcol
      rcases hcol2 : collect_publish env rest stB with ⟨stC, rc⟩
      rw [hcol2] at hcol
      cases rc with
      | error e =>
        rw [state_bind_eq_error] at hcol
        simp at hcol
      | ok ds2 =>
        simp only [state_bind_eq_ok] at hcol
        have h1 : stC = st1 := congrArg Prod.fst hcol
        have h2 : ds = (r, a, publish_ctx env) :: ds2 :=
          (Except.ok.inj (congrArg Prod.snd hcol)).symm
        exact ⟨u, a, ds2, stA, stB, rfl, hga, h1 ▸ hcol2, h2⟩

theorem collect_publish_ok_ids (env : PublishMessageEnvelope Msg)
    (rs : List AgentId) (st st1 : RuntimeState Msg)
    (ds : List (AgentId × Agent Msg × MessageContext Msg))
    (hcol : collect_publish env rs st = (st1, .ok ds)) :
    ds.map (fun d => d.1) =
      rs.filter (fun x => ¬(env.sender = some x)) := by
  induction rs generalizing st ds with
  | nil =>
    unfold collect_publish at hcol
    have h2 : ds = [] := (Except.ok.inj (congrArg Prod.snd hcol)).symm
    rw [h2]
    rfl
  | cons r rest ih =>
    by_cases hr : env.sender = some r
    · unfold collect_publish at hcol
      rw [if_pos hr] at hcol
      rw [ih st ds hcol]
      rw [List.filter_cons_of_neg (by simpa using hr)]
    · obtain ⟨u, a, ds2, stA, stB, hres, hga, hcol2, hds⟩ :=
        collect_publish_cons_ok env r rest st st1 ds hr hcol
      rw [hds]
      rw [List.filter_cons_of_pos (by simpa using hr)]
      rw [← ih stB ds2 hcol2]
      rfl

theorem collect_publish_sender_missing (env : PublishMessageEnvelope Msg)
    (S : AgentId) (rs : List AgentId) (st : RuntimeState Msg)
    (hs : env.sender = some S)
    (hinst : alookup st.instantiated_agents S = none)
    (hfac : alookup st.agent_factories S.type = none)
    (hex : ∃ x ∈ rs, x ≠ S) :
    collect_publish env rs st = (st, .error (.agentNotFound S.type)) := by
  induction rs with
  | nil =>
    rcases hex with ⟨x, hx, _⟩
    cases hx
  | cons r rest ih =>
    unfold collect_publish
    by_cases hr : env.sender = some r
    · rw [if_pos hr]
      have hrS : r = S := (Option.some.inj (hs.symm.trans hr)).symm
      apply ih
      rcases hex with ⟨x, hx, hxS⟩
      rcases List.mem_cons.mp hx with h1 | h2
      · exact absurd (h1.trans hrS) hxS
      · exact ⟨x, h2, hxS⟩
    · rw [if_neg hr]
      have hrs : resolve_sender env st =
          (st, .error (.agentNotFound S.type)) := by
        unfold resolve_sender
        simp only [hs]
        rw [get_agent_eq_missing st S hinst hfac]
        rfl
      rw [hrs, state_bind_eq_error]

theorem collect_publish_sender_cached (env : PublishMessageEnvelope Msg)
    (S : AgentId) (rs : List AgentId) (st st1 : RuntimeState Msg)
    (ds : List (AgentId × Agent Msg × MessageContext Msg))
    (hs : env.sender = some S)
    (hcol : collect_publish env rs st = (st1, .ok ds))
    (hex : ∃ x ∈ rs, x ≠ S) :
    ∃ ag, alookup st1.instantiated_agents S = some ag := by
  induction rs generalizing st ds with
  | nil =>
    rcases hex with ⟨x, hx, _⟩
    cases hx
  | cons r rest ih =>
    by_cases hr : env.sender = some r
    · unfold collect_publish at hcol
      rw [if_pos hr] at hcol
      have hrS : r = S := (Option.some.inj (hs.symm.trans hr)).symm
      apply ih st ds hcol
      rcases hex with ⟨x, hx, hxS⟩
      rcases List.mem_cons.mp hx with h1 | h2
      · exact absurd (h1.trans hrS) hxS
      · exact ⟨x, h2, hxS⟩
    · obtain ⟨u, a, ds2, stA, stB, hres, hga, hcol2, hds⟩ :=
        collect_publish_cons_ok env r rest st st1 ds hr hcol
      -- the sender was resolved successfully, so it is cached in stA
      have hcache : ∃ ag, alookup stA.instantiated_agents S = some ag := by
        unfold resolve_sender at hres
        simp only [hs] at hres
        have h1 : (get_agent st S).1 = stA := congrArg Prod.fst hres
        have h2 : (get_agent st S).2.map (fun _ => ()) = Except.ok u :=
          congrArg Prod.snd hres
        cases hga2 : (get_agent st S).2 with
        | error e =>
          rw [hga2] at h2
          simp [Except.map] at h2
        | ok ag =>
          refine ⟨ag, ?_⟩
          rw [← h1]
          exact get_agent_ok_cached_after st S ag hga2
      obtain ⟨ag, hag⟩ := hcache
      have m1 : cache_mono stA stB := by
        have h := (get_agent_preserves stA r).2.1
        rw [hga] at h
        exact h
      have m2 : cache_mono stB st1 := by
        have h := (collect_publish_preserves env rest stB).2.1
        rw [hcol2] at h
        exact h
      exact ⟨ag, m2 S ag (m1 S ag hag)⟩

/-! ### Claim C4 -/

/-- **C4.**  For every publish envelope with a non-null sender `S`, `S` is
never among the agents whose `on_message` is invoked for that message —
every invocation the delivery adds has an id different from `S`, even when
the subscription manager's recipients for the topic contain `S`; and when
the collection succeeds, exactly the non-self matched recipients are
invoked, in subscription order. -/
theorem C4_no_self_delivery (st : RuntimeState Msg)
    (env : PublishMessageEnvelope Msg) (S : AgentId)
    (hs : env.sender = some S) :
    (∀ p, p ∈ (process_publish st env).invoked → p ∈ st.invoked ∨ p.1 ≠ S) ∧
    (∀ st1 ds,
      collect_publish env (get_subscribed_recipients st env.topic_id) st =
        (st1, .ok ds) →
      (process_publish st env).invoked = st.invoked ++
        ((get_subscribed_recipients st env.topic_id).filter
          (fun x => ¬(env.sender = some x))).map
          (fun x => (x, env.message))) := by
  have hinvfr : ∀ st0 : RuntimeState Msg,
      (collect_publish env (get_subscribed_recipients st env.topic_id)
        st0).1.invoked = st0.invoked :=
    collect_publish_proj (fun s => s.invoked)
      (fun s a => (get_agent_frame s a).2.2.2.1) env _
  have key : ∀ st1 ds,
      collect_publish env (get_subscribed_recipients st env.topic_id) st =
        (st1, .ok ds) →
      (process_publish st env).invoked = st.invoked ++
        ((get_subscribed_recipients st env.topic_id).filter
          (fun x => ¬(env.sender = some x))).map
          (fun x => (x, env.message)) := by
    intro st1 ds hcol
    rw [process_publish_invoked_ok st env st1 ds hcol]
    rw [gather_publish_invoked]
    have h1 : st1.invoked = st.invoked := by
      have h := hinvfr st
      rw [hcol] at h
      exact h
    rw [h1]
    have hids := collect_publish_ok_ids env _ st st1 ds hcol
    have hmm : ds.map (fun d => (d.1, env.message)) =
        (ds.map (fun d => d.1)).map (fun x => (x, env.message)) := by
      rw [List.map_map]
      rfl
    rw [hmm, hids]
  refine ⟨?_, key⟩
  intro p hp
  rcases hcolc : collect_publish env
      (get_subscribed_recipients st env.topic_id) st with ⟨st1, rc⟩
  cases rc with
  | error e =>
    left
    rw [process_publish_invoked_error st env st1 e hcolc] at hp
    have h1 : st1.invoked = st.invoked := by
      have h := hinvfr st
      rw [hcolc] at h
      exact h
    rw [h1] at hp
    exact hp
  | ok ds =>
    rw [key st1 ds hcolc] at hp
    rcases List.mem_append.mp hp with h | h
    · exact Or.inl h
    · right
      obtain ⟨x, hx, hpx⟩ := List.mem_map.mp h
      have hfil := (List.mem_filter.mp hx).2
      intro hpS
      have hpx1 : p.1 = x := by rw [← hpx]
      have hxS : x = S := hpx1.symm.trans hpS
      have hnot : ¬(env.sender = some x) := of_decide_eq_true hfil
      apply hnot
      rw [hxS]
      exact hs

/-- Witness for `C4_no_self_delivery`: topic recipients `[pubA, pubS, pubB]`
with sender `pubS` — `pubA`'s invocation is not a self-delivery, and the
invocation list is exactly the non-self recipients in order. -/
theorem C4_no_self_delivery_witness :
    ((pubA, (9 : Nat)) ∈ pubRuntime.invoked ∨ (pubA, (9 : Nat)).1 ≠ pubS) ∧
    (process_publish pubRuntime pubEnvW).invoked = pubRuntime.invoked ++
      ((get_subscribed_recipients pubRuntime pubEnvW.topic_id).filter
        (fun x => ¬(pubEnvW.sender = some x))).map
        (fun x => (x, pubEnvW.message)) :=
  ⟨(C4_no_self_delivery pubRuntime pubEnvW pubS rfl).1 (pubA, 9) (by decide),
    (C4_no_self_delivery pubRuntime pubEnvW pubS rfl).2
      pubCollState pubCollected rfl⟩

/-! ### Claim C10 -/

/-- **C10.**  Delivering a publish envelope with a non-null sender `S`
resolves the sender through the instance cache: when the collection
succeeds and some matched recipient differs from `S`, the sender ends up
instantiated in the cache even though it receives no message.  If `S`'s
type is not registered (and `S` is not cached), the resulting lookup error
is caught and logged (`errors_logged` grows by one), `task_done` is still
performed exactly once, and no recipient's `on_message` is invoked for that
publish. -/
theorem C10_publish_sender_resolution (st : RuntimeState Msg)
    (env : PublishMessageEnvelope Msg) (S : AgentId)
    (hs : env.sender = some S) :
    (∀ st1 ds,
      collect_publish env (get_subscribed_recipients st env.topic_id) st =
        (st1, .ok ds) →
      (∃ x ∈ get_subscribed_recipients st env.topic_id, x ≠ S) →
      ∃ ag, alookup (process_publish st env).instantiated_agents S =
        some ag) ∧
    (alookup st.instantiated_agents S = none →
      alookup st.agent_factories S.type = none →
      (∃ x ∈ get_subscribed_recipients st env.topic_id, x ≠ S) →
      process_publish st env =
        task_done { st with errors_logged := st.errors_logged + 1 } ∧
      (process_publish st env).invoked = st.invoked ∧
      (process_publish st env).task_done_count = st.task_done_count + 1) := by
  constructor
  · intro st1 ds hcol hex
    obtain ⟨ag, hag⟩ :=
      collect_publish_sender_cached env S _ st st1 ds hs hcol hex
    rw [process_publish_instances_ok st env st1 ds hcol]
    exact ⟨ag, hag⟩
  · intro hinst hfac hex
    have hcol := collect_publish_sender_missing env S _ st hs hinst hfac hex
    have heq := process_publish_error_logged st env st _ hcol
      (fun h => Err.noConfusion h)
    refine ⟨heq, ?_, ?_⟩
    · rw [heq]
      rfl
    · rw [heq]
      rfl

/-- Witness for `C10_publish_sender_resolution`: the registered sender
`pubS` is lazily instantiated by the fan-out, and the unregistered sender
`badS` makes the publish log an error, keep `task_done` balanced and invoke
nobody. -/
theorem C10_publish_sender_resolution_witness :
    (∃ ag, alookup (process_publish pubRuntime
      pubEnvW).instantiated_agents pubS = some ag) ∧
    (process_publish badPubRuntime badPubEnv =
        task_done { badPubRuntime with
          errors_logged := badPubRuntime.errors_logged + 1 } ∧
      (process_publish badPubRuntime badPubEnv).invoked =
        badPubRuntime.invoked ∧
      (process_publish badPubRuntime badPubEnv).task_done_count =
        badPubRuntime.task_done_count + 1) :=
  ⟨(C10_publish_sender_resolution pubRuntime pubEnvW pubS rfl).1
      pubCollState pubCollected rfl ⟨pubA, by decide⟩,
    (C10_publish_sender_resolution badPubRuntime badPubEnv badS rfl).2
      rfl rfl ⟨pubB, by decide⟩⟩

end AutogenCore
